import Mathlib

/-!
# Verification of the pyxwin manifest-resolver and acquisition pipeline

This file gives a shallow embedding, in Lean 4, of the parts of the pyxwin
code base that the specification's claims are about:

* `src/pyxwin/core/https_client.py`, `src/pyxwin/io_operations/file_io.py`
  and `src/pyxwin/core/aiofiles_wrapper.py` (hashed file writer),
* `src/pyxwin/wincrt_sdk/download_unpack.py` (pipeline driver download and
  unpack stages),
* `src/pyxwin/wincrt_sdk/msft_file_operations.py` (archive extractors),
* `src/pyxwin/wincrt_sdk/manifest_datatypes.py` (data model; architecture,
  variant and payload types; id-based arch/variant inference),
* `src/pyxwin/wincrt_sdk/win_crt.py` (CRT/ATL payload selection),
* `src/pyxwin/wincrt_sdk/win_sdk.py` (SDK version discovery),
* `src/pyxwin_cli/wincrtsdk_cli/wincrt_cmd.py` (channel gating).

Python strings are modelled by `String` (which in this Lean version is a
wrapper around `List Char`), byte strings by `List Nat`, the filesystem by
an association list from paths to byte contents, exceptions by `Except`
or by an explicit error component, and `packaging.version.Version`
(restricted to release segments, the only form the program encounters)
by `List Nat` with PEP-440 comparison (shorter versions padded with
zeros).  Python `dict` objects are modelled by association lists together
with an insertion operation that preserves the position of existing keys,
which is Python's dictionary update semantics.
-/

/-! ## Small string and character utilities -/

/-- The characters that may occur in a rendered dotted version number. -/
def ddChars : List Char := "0123456789.".data

/-- ASCII lower-casing of a single character, the effect `str.lower` has on
the ASCII identifiers this program manipulates. -/
def asciiLower (c : Char) : Char :=
  if 'A' ≤ c ∧ c ≤ 'Z' then Char.ofNat (c.toNat + 32) else c

/-- Model of Python `str.lower` on ASCII strings. -/
def str_lower (s : String) : String := String.mk (s.data.map asciiLower)

/-- Boolean test that `a` is a prefix of `b` (on character lists). -/
def isPrefB : List Char → List Char → Bool
  | [], _ => true
  | _ :: _, [] => false
  | a :: as, b :: bs => a = b && isPrefB as bs

/-- Boolean test that `n` occurs as a contiguous sublist of `l`; this is the
model of Python's `in` operator on strings. -/
def isInfB (n : List Char) : List Char → Bool
  | [] => n.isEmpty
  | l@(_ :: t) => isPrefB n l || isInfB n t

/-- Model of Python `needle in hay` (substring containment). -/
def substrOf (needle hay : String) : Bool := isInfB needle.data hay.data

/-- Boolean test that `a` is a suffix of `b`. -/
def isSufB (a b : List Char) : Bool := isPrefB a.reverse b.reverse

/-- Model of Python `s.endswith(suffix)`. -/
def strEndsWith (s suffix : String) : Bool := isSufB suffix.data s.data

/-- Model of Python `s.split(".")` specialised to the dot separator:
splits into the (possibly empty) runs between dots. -/
def splitDotGo : List Char → List Char → List String
  | [], cur => [String.mk cur.reverse]
  | c :: rest, cur =>
    if c = '.' then String.mk cur.reverse :: splitDotGo rest []
    else splitDotGo rest (c :: cur)

/-- Model of Python `s.split(".")`. -/
def splitDot (s : String) : List String := splitDotGo s.data []

/-- Model of Python `str.isdigit` for the ASCII strings in manifests:
non-empty and all characters decimal digits. -/
def isDigitStr (s : String) : Bool := !s.data.isEmpty && s.data.all Char.isDigit

/-- Parse a decimal digit string (model of Python `int(s)` on the digit
strings produced by manifest parsing; the program only applies it to
validated segments). -/
def parseNat (s : String) : Nat :=
  s.data.foldl (fun n c => n * 10 + (c.toNat - 48)) 0

/-- Decimal digits of a natural number, most significant first
(fuel-based so that it reduces definitionally). -/
def natDigitsAux : Nat → Nat → List Char
  | 0, _ => []
  | fuel + 1, n =>
    if n < 10 then [Char.ofNat (48 + n)]
    else natDigitsAux fuel (n / 10) ++ [Char.ofNat (48 + n % 10)]

/-- Model of Python `str(n)` for a non-negative integer. -/
def natRepr (n : Nat) : String := String.mk (natDigitsAux (n + 1) n)

/-- Join a list of strings with dots: model of `".".join(parts)` and of
the rendering of a `packaging.version.Version` release tuple. -/
def joinDots : List String → String
  | [] => ""
  | [s] => s
  | s :: rest => s ++ "." ++ joinDots rest

/-- Rendering of a parsed version back to its dotted decimal string,
the model of `str(Version(...))` for pure release versions. -/
def renderVersion (v : List Nat) : String := joinDots (v.map natRepr)

/-! ## Version comparison (PEP 440 release ordering)

`packaging.version.Version` compares release tuples componentwise,
padding the shorter tuple with zeros.  All versions this program compares
have equal length (4 components for CRT, 3 for SDK), for which this
agrees with plain lexicographic comparison. -/

/-- Comparison of the empty release tuple against `ys` (zero padding):
`lt` as soon as `ys` has a positive component, `eq` otherwise. -/
def cmpZeros : List Nat → Ordering
  | [] => .eq
  | y :: ys => if 0 < y then .lt else cmpZeros ys

/-- Three-way comparison of release tuples with zero padding. -/
def cmpV : List Nat → List Nat → Ordering
  | [], ys => cmpZeros ys
  | x :: xs, [] => (cmpZeros (x :: xs)).swap
  | x :: xs, y :: ys =>
    if x < y then .lt else if y < x then .gt else cmpV xs ys

/-- Model of `Version(a) < Version(b)`. -/
def versionLtB (a b : List Nat) : Bool := cmpV a b = Ordering.lt

/-- Model of `Version(a) == Version(b)`. -/
def versionEqB (a b : List Nat) : Bool := cmpV a b = Ordering.eq

/-- Model of Python tuple comparison `(w1, v1) < (w2, v2)` for
`(int, Version)` pairs as used for SDK keys. -/
def sdkPairLt (a b : Nat × List Nat) : Bool :=
  a.1 < b.1 || (a.1 = b.1 && versionLtB a.2 b.2)

/-- Model of Python `max(x :: xs)`: keep the current maximum, replace it
only when a strictly greater element appears (so the first maximal element
wins ties). -/
def foldMax {α : Type} (lt : α → α → Bool) (x : α) (xs : List α) : α :=
  xs.foldl (fun acc y => if lt acc y then y else acc) x

/-! ## Error taxonomy (`pyxwin_exceptions.py` plus built-in exceptions) -/

/-- The pyxwin error taxonomy together with the built-in Python exceptions
that uncaught code paths can raise. -/
inductive PyErr : Type
  | download (status : Option Nat) (message : String)
  | missingPackage (message : String)
  | unsupported (message : String)
  | malformedJson (message : String)
  | missingField (message : String)
  | invalidInput (message : String)
  | pyxwin (message : String)
  | keyError (key : String)
  | runtime (message : String)
deriving DecidableEq

/-! ## Filesystem model -/

/-- The filesystem: a map from path strings to byte contents, represented
as an association list where the most recent write shadows older entries. -/
abbrev FS := List (String × List Nat)

/-- Look up the current contents of a path. -/
def lookupFS : FS → String → Option (List Nat)
  | [], _ => none
  | (p, bs) :: rest, q => if p = q then some bs else lookupFS rest q

/-- Create-or-truncate write of bytes to a path (`open(path, "wb")`). -/
def writeBytes (fs : FS) (p : String) (bs : List Nat) : FS := (p, bs) :: fs

/-! ## Data model (`manifest_datatypes.py`) -/

/-- `Architecture` enumeration. -/
inductive Architecture : Type
  | X86
  | X86_64
  | AARCH
  | AARCH64
  | ALL
deriving DecidableEq

/-- `Architecture.as_microsoft_names`. -/
def Architecture.as_microsoft_names : Architecture → String
  | .X86 => "x86"
  | .X86_64 => "x64"
  | .AARCH => "arm"
  | .AARCH64 => "arm64"
  | .ALL => "all"

/-- `Architecture.to_crt_package_id_str`: Microsoft name, except that only
ARM64 is upper-cased. -/
def Architecture.to_crt_package_id_str (a : Architecture) : String :=
  if a = Architecture.AARCH64 then "ARM64" else a.as_microsoft_names

/-- `Architecture.to_atl_package_id_str`: the CRT id string upper-cased. -/
def Architecture.to_atl_package_id_str (a : Architecture) : String :=
  String.mk (a.to_crt_package_id_str.data.map (fun c =>
    if 'a' ≤ c ∧ c ≤ 'z' then Char.ofNat (c.toNat - 32) else c))

/-- `Variant` enumeration. -/
inductive Variant : Type
  | DESKTOP
  | ONECORE
  | STORE
  | ALL
deriving DecidableEq

/-- `Variant.__str__`: the Microsoft name of a variant. -/
def variantStrOf : Variant → String
  | .DESKTOP => "Desktop"
  | .ONECORE => "OneCore.Desktop"
  | .STORE => "Store"
  | .ALL => "All"

/-- `Variant.get_all_variants()`: the concrete variants, in declaration
order, excluding `ALL`. -/
def Variant.get_all_variants : List Variant :=
  [Variant.DESKTOP, Variant.ONECORE, Variant.STORE]

/-- `Channel` enumeration. -/
inductive Channel : Type
  | STABLE
  | PREVIEW
  | RELEASE
  | INSIDERS
deriving DecidableEq

/-- `PayloadType` enumeration. -/
inductive PayloadType : Type
  | ATL_HEADERS
  | ATL_LIBS
  | CRT_HEADERS
  | CRT_LIBS
  | SDK_HEADERS
  | SDK_LIBS
  | SDK_STORE_LIBS
  | UCRT
  | VCR_DEBUG
  | CAB_FILE
deriving DecidableEq

/-- `ManifestPayload`. -/
structure ManifestPayload : Type where
  sha256 : String
  size : Nat
  url : String
  file_name : String
deriving DecidableEq

/-- `ManifestItem`, restricted to the fields the selectors consume.
`dependencies` is modelled by its key list, the only part the program
reads, and `install_sizes` by an association list. -/
structure ManifestItem : Type where
  id : String
  version : String
  payloads : Option (List ManifestPayload)
  dependencies : Option (List String)
  install_sizes : Option (List (String × Nat))
deriving DecidableEq

/-- `PyxwinPackages`: the materialized installer manifest, package id to
the (non-empty, in the real loader) list of items with that id. -/
abbrev PyxwinPackages := List (String × List ManifestItem)

/-- Python `dict` lookup (`pkgs[item_id]`, returning `none` for a
`KeyError`). -/
def lookupPkg : PyxwinPackages → String → Option (List ManifestItem)
  | [], _ => none
  | (k, v) :: rest, q => if k = q then some v else lookupPkg rest q

/-- `ManifestOptions` (the `Configuration` of the spec). -/
structure ManifestOptions : Type where
  channel_manifest_path : Option String
  manifest_version : Int
  channel : Channel
  arch : List Architecture
  variant : List Variant
  cache_dir : String
  crt_version : Option String
  sdk_version : Option String
  include_atl : Bool
  include_spectre : Bool
deriving DecidableEq

/-- `CRTPayload`. -/
structure CRTPayload : Type where
  filename : String
  kind : PayloadType
  sha256 : String
  size : Nat
  target_arch : Architecture
  url : String
  variant : Variant
  version : String
  spectre_hardened : Bool
  install_size : Option Nat
deriving DecidableEq

/-- `SDKPayload`. -/
structure SDKPayload : Type where
  filename : String
  kind : PayloadType
  sha256 : String
  size : Nat
  target_arch : Architecture
  url : String
  version : String
  install_size : Option Nat
deriving DecidableEq

/-- The elements of the mapping produced by `prune_packages`:
`CRTPayload | SDKPayload`. -/
inductive PrunedPayload : Type
  | crt (p : CRTPayload)
  | sdk (p : SDKPayload)
deriving DecidableEq

/-- `isinstance(pkg, SDKPayload)`. -/
def PrunedPayload.isSdk : PrunedPayload → Bool
  | .crt _ => false
  | .sdk _ => true

/-- The `url` field of either payload kind. -/
def PrunedPayload.url : PrunedPayload → String
  | .crt p => p.url
  | .sdk p => p.url

/-- The `version` field of either payload kind. -/
def PrunedPayload.version : PrunedPayload → String
  | .crt p => p.version
  | .sdk p => p.version

/-- The `filename` field of either payload kind. -/
def PrunedPayload.filename : PrunedPayload → String
  | .crt p => p.filename
  | .sdk p => p.filename

/-- The `sha256` field of either payload kind. -/
def PrunedPayload.sha256 : PrunedPayload → String
  | .crt p => p.sha256
  | .sdk p => p.sha256

/-! ## C10: channel gating (`wincrt_cmd.py`, `app_callback`) -/

/-- The channel/version gate executed by `app_callback` before the
`download` command body (and hence before any network request) runs.
`some 1` models `raise typer.Exit(code=1)`, `none` models passing the
gate.  `VISUAL_STUDIO_2026_CHANNEL = 18`. -/
def app_callback_gate (manifest_version : Int) (channel : Channel) : Option Nat :=
  if manifest_version ≥ 18 then
    if ¬(channel = Channel.STABLE ∨ channel = Channel.INSIDERS) then some 1 else none
  else
    if ¬(channel = Channel.RELEASE ∨ channel = Channel.PREVIEW) then some 1 else none

/-! ## C2: download and validate (`file_io.py` / `aiofiles_wrapper.py`) -/

/-- Lower-case hexadecimal digit for a value below 16. -/
def hexChar (n : Nat) : Char :=
  if n < 10 then Char.ofNat (48 + n) else Char.ofNat (87 + n)

/-- Lower-case hexadecimal rendering of a byte string: the model of
`hashlib`'s `.hexdigest()` applied to a digest. -/
def bytesToHex (bs : List Nat) : String :=
  String.mk (bs.flatMap (fun b => [hexChar (b / 16), hexChar (b % 16)]))

/-- The error object `PyxwinDownloadError(status_code, message)`. -/
structure DownloadErrorModel : Type where
  status_code : Option Nat
  message : String
deriving DecidableEq

/-- `download_and_validate(url, file_path, target_sha256)` from
`io_operations/file_io.py` (the copy in `core/aiofiles_wrapper.py` is
identical): fetch the bytes, hex-digest their SHA-256, compare the digest
case-insensitively against the expected value, raise
`PyxwinDownloadError(status_code=None, ...)` on mismatch, and only on a
match write the bytes to the path.  The SHA-256 compression function is a
parameter `digest`, the (successful) fetch is the parameter `fetch`, and
the result carries the raised error (if any) together with the resulting
filesystem. -/
def download_and_validate (digest : List Nat → List Nat) (fetch : String → List Nat)
    (url : String) (file_path : String) (target_sha256 : String) (fs : FS) :
    Option DownloadErrorModel × FS :=
  let raw_bytes := fetch url
  let downloaded_sha := bytesToHex (digest raw_bytes)
  if str_lower target_sha256 ≠ str_lower downloaded_sha then
    (some { status_code := none, message := "SHA256 mismatch for url " ++ url }, fs)
  else
    (none, writeBytes fs file_path raw_bytes)

/-! ## C1: the driver's download stage (`download_unpack.py`) -/

/-- `download_packages(manifest_options, packages)`: fetch every payload's
url, then write each result to
`cache_dir/downloads/{SDK|CRT}_{version}/{filename}`, returning the new
filesystem and the list of downloaded file paths.  The source performs the
fetches and writes in two task groups; with a deterministic `fetch` the
joint outcome equals this sequential fold.  Note that no hash is computed
anywhere in this function. -/
def download_packages (fetch : String → List Nat) (cache_dir : String)
    (packages : List (String × PrunedPayload)) (fs : FS) : FS × List String :=
  packages.foldl
    (fun acc kv =>
      let pkg := kv.2
      let package_dir_name := (if pkg.isSdk then "SDK_" else "CRT_") ++ pkg.version
      let file_path := cache_dir ++ "/downloads/" ++ package_dir_name ++ "/" ++ pkg.filename
      (writeBytes acc.1 file_path (fetch pkg.url), acc.2 ++ [file_path]))
    (fs, [])

/-- Replace the expected-hash fields of a payload plan with arbitrary
values, leaving every other field unchanged. -/
def setShaCrt (p : CRTPayload) (s : String) : CRTPayload := { p with sha256 := s }

/-- Replace the expected-hash field of either payload kind. -/
def setSha (p : PrunedPayload) (s : String) : PrunedPayload :=
  match p with
  | .crt q => .crt { q with sha256 := s }
  | .sdk q => .sdk { q with sha256 := s }

/-! ## C3: the driver's unpack stage (`download_unpack.py`, `unpack_files`) -/

/-- Paths handled by `unpack_files` are modelled by their segments. -/
abbrev MPath := List String

/-- `pathlib.Path.suffix` of a file name: the final `"." + ext` component,
empty for names without a dot or for dot-files. -/
def pySuffix (name : String) : String :=
  match splitDot name with
  | [] => ""
  | [_] => ""
  | first :: parts => if first = "" ∧ parts.length = 1 then "" else "." ++ (parts.getLastD "")

/-- The observable effect of `unpack_files(manifest_options, file_paths)`:
the extract directories it creates and the extraction tasks it spawns.
For every downloaded path it creates
`cache_dir/unpack/{package_dir_name}/{file_name}`, and it dispatches an
extraction task only when the path's suffix is `.vsix` (to the local
`_extract_vsix`); there is no `.msi` branch in the source. -/
structure UnpackEffect : Type where
  made_dirs : List MPath
  vsix_dispatch : List (MPath × MPath)
deriving DecidableEq

/-- `unpack_files` (see `UnpackEffect`). -/
def unpack_files (cache_dir : MPath) (file_paths : List MPath) : UnpackEffect :=
  file_paths.foldl
    (fun acc fp =>
      let file_name := fp.getLastD ""
      let package_dir_name := fp.dropLast.getLastD ""
      let extract_location := cache_dir ++ ["unpack", package_dir_name, file_name]
      { made_dirs := acc.made_dirs ++ [extract_location],
        vsix_dispatch := acc.vsix_dispatch ++
          (if pySuffix file_name = ".vsix" then [(fp, extract_location)] else []) })
    { made_dirs := [], vsix_dispatch := [] }

/-! ## C9: VSIX extraction with member filtering
(`msft_file_operations.py`, `_extract_vsix`) -/

/-- The `required_dirs` filter set of `_extract_vsix`. -/
def required_dirs : List String := ["lib", "src", "include", "crt"]

/-- The member-selection predicate of `_extract_vsix`: keep an archive
path when it contains any of the required directory names as a
(case-sensitive) substring. -/
def vsixKeep (archive_path : String) : Bool :=
  required_dirs.any (fun required_dir => substrOf required_dir archive_path)

/-- `files_to_extract` as computed by `_extract_vsix` from the zip's
member name list. -/
def vsix_files_to_extract (namelist : List String) : List String :=
  namelist.filter vsixKeep

/-- The effect of `_extract_vsix(file_path, extract_location)` on the
filesystem, given the zip's entries as `(member name, bytes)` pairs:
`extractall(extract_location, files_to_extract)` writes each selected
member under the extract location preserving its archive-relative path,
and touches nothing else. -/
def extract_vsix_fs (entries : List (String × List Nat)) (extract_location : String)
    (fs : FS) : FS :=
  entries.foldl
    (fun acc e =>
      if vsixKeep e.1 then writeBytes acc (extract_location ++ "/" ++ e.1) e.2 else acc)
    fs

/-! ## Arch/variant inference (`manifest_datatypes.py`) -/

/-- `detect_arch_from_id(item_id, kind)`: substring-based architecture
inference on the lower-cased id, testing `arm64` before `arm` before
`x64` before `x86`; headers fall back to `All`; everything else raises
`PyxwinError`. -/
def detect_arch_from_id (item_id : String) (kind : PayloadType) : Except PyErr Architecture :=
  if substrOf Architecture.AARCH64.as_microsoft_names (str_lower item_id) then .ok .AARCH64
  else if substrOf Architecture.AARCH.as_microsoft_names (str_lower item_id) then .ok .AARCH
  else if substrOf Architecture.X86_64.as_microsoft_names (str_lower item_id) then .ok .X86_64
  else if substrOf Architecture.X86.as_microsoft_names (str_lower item_id) then .ok .X86
  else if kind = .ATL_HEADERS ∨ kind = .CRT_HEADERS ∨ kind = .SDK_HEADERS then .ok .ALL
  else .error (.pyxwin "Unreachable: Manifest item does not specify a known architecture.")

/-- The variant-inference step of `CRTPayload.from_manifest_item`:
headers and ATL payloads get `All`; otherwise substring checks on the
(raw) id test `OneCore.Desktop` before `Desktop` before `Store`. -/
def detect_variant_from_id (item_id : String) (kind : PayloadType) : Except PyErr Variant :=
  if kind = .ATL_LIBS ∨ kind = .ATL_HEADERS ∨ kind = .CRT_HEADERS ∨ kind = .SDK_HEADERS then
    .ok .ALL
  else if substrOf (variantStrOf .ONECORE) item_id then .ok .ONECORE
  else if substrOf (variantStrOf .DESKTOP) item_id then .ok .DESKTOP
  else if substrOf (variantStrOf .STORE) item_id then .ok .STORE
  else .error (.pyxwin "Unreachable: Manifest item does not specify a known variant.")

/-- `CRTPayload.from_manifest_item(manifest_item, kind, crt_version,
spectre_hardened)`. -/
def CRTPayload.from_manifest_item (manifest_item : ManifestItem) (kind : PayloadType)
    (crt_version : List Nat) (spectre_hardened : Bool) : Except PyErr CRTPayload := do
  let variant ← detect_variant_from_id manifest_item.id kind
  let arch ← detect_arch_from_id manifest_item.id kind
  match manifest_item.payloads with
  | none =>
    .error (.malformedJson ("No payloads found for manifest item " ++ manifest_item.id ++ "."))
  | some [] =>
    .error (.malformedJson ("No payloads found for manifest item " ++ manifest_item.id ++ "."))
  | some (p0 :: _) =>
    let install_size :=
      match manifest_item.install_sizes with
      | none => none
      | some sizes => (sizes.find? (fun kv => kv.1 = "targetDrive")).map Prod.snd
    .ok { filename := p0.file_name, kind := kind, sha256 := p0.sha256, size := p0.size,
          target_arch := arch, url := p0.url, variant := variant,
          version := renderVersion crt_version, spectre_hardened := spectre_hardened,
          install_size := install_size }

/-! ## CRT version discovery (`win_crt.py`) -/

/-- `extract_version`'s scan for the first window of four consecutive
dot-separated numeric segments. -/
def find4 : List String → Option (List String)
  | p0 :: p1 :: p2 :: p3 :: rest =>
    if isDigitStr p0 && isDigitStr p1 && isDigitStr p2 && isDigitStr p3 then
      some [p0, p1, p2, p3]
    else find4 (p1 :: p2 :: p3 :: rest)
  | _ => none

/-- `extract_version(component_id)`: the first four consecutive numeric
dot-separated segments of the id, joined with dots, or `None`. -/
def extract_version (component_id : String) : Option String :=
  (find4 (splitDot component_id)).map joinDots

/-- Model of `Version(s)` for a dotted numeric string: the list of parsed
segments. -/
def parseVersionStr (s : String) : List Nat := (splitDot s).map parseNat

/-- The CRT version candidates collected in `get_toolchain_artifact`:
`Version(extract_version(key))` for every dependency key ending in
`.x86.x64` whose `extract_version` is not `None`. -/
def crtVersionsOf (build_dependencies : List String) : List (List Nat) :=
  build_dependencies.filterMap (fun key =>
    if strEndsWith key ".x86.x64" then
      match extract_version key with
      | some ver => some (parseVersionStr ver)
      | none => none
    else none)

/-- The CRT-version choice of `get_toolchain_artifact`: a pinned
`cfg.crt_version` must be among the candidates
(`UnsupportedPackageConfigurationError` otherwise); with no pin the
maximum candidate is taken (`max` of an empty sequence is a Python
`ValueError`). -/
def discover_crt_version (build_dependencies : List String) (crt_version_opt : Option String) :
    Except PyErr (List Nat) :=
  let crt_version_rs_versions := crtVersionsOf build_dependencies
  match crt_version_opt with
  | some s =>
    let crt_version := parseVersionStr s
    if crt_version_rs_versions.any (fun x => versionEqB x crt_version) then .ok crt_version
    else .error (.unsupported ("Specified CRT version '" ++ s ++ "' is not available."))
  | none =>
    match crt_version_rs_versions with
    | [] => .error (.runtime "max() iterable argument is empty")
    | v :: vs => .ok (foldMax versionLtB v vs)

/-! ## CRT/ATL payload selection (`win_crt.py`) -/

/-- The package-id templates used by the selector.  Each is the
corresponding f-string of the source, grouped as
`"Microsoft.VC." ++ (version ++ tail)` (the same string, associated for
convenient reasoning about the symbolic version in the middle). -/
def crt_headers_id (ver : List Nat) : String :=
  "Microsoft.VC." ++ (renderVersion ver ++ ".CRT.Headers.base")

/-- `f"Microsoft.VC.{crt_version}.ATL.Headers.base"`. -/
def atl_headers_id (ver : List Nat) : String :=
  "Microsoft.VC." ++ (renderVersion ver ++ ".ATL.Headers.base")

/-- `f"Microsoft.VC.{crt_version}.CRT.{arch_str}.{variant}.base"`. -/
def crt_lib_id (ver : List Nat) (arch_str variant_str : String) : String :=
  "Microsoft.VC." ++ (renderVersion ver ++ (".CRT." ++ arch_str ++ "." ++ variant_str ++ ".base"))

/-- `f"Microsoft.VC.{crt_version}.CRT.{arch_str}.{variant}.spectre.base"`. -/
def crt_spectre_lib_id (ver : List Nat) (arch_str variant_str : String) : String :=
  "Microsoft.VC." ++
    (renderVersion ver ++ (".CRT." ++ arch_str ++ "." ++ variant_str ++ ".spectre.base"))

/-- `f"Microsoft.VC.{crt_version}.ATL.{arch_str}.base"`. -/
def atl_lib_id (ver : List Nat) (arch_str : String) : String :=
  "Microsoft.VC." ++ (renderVersion ver ++ (".ATL." ++ arch_str ++ ".base"))

/-- `f"Microsoft.VC.{crt_version}.ATL.{arch_str}.Spectre.base"`. -/
def atl_spectre_lib_id (ver : List Nat) (arch_str : String) : String :=
  "Microsoft.VC." ++ (renderVersion ver ++ (".ATL." ++ arch_str ++ ".Spectre.base"))

/-- `grab_payload_from_pyxwin_packages`: look the id up in the package
index (a missing id — Python `KeyError` — becomes
`UnsupportedPackageConfigurationError`), take the first item and convert
it via `CRTPayload.from_manifest_item` (whose own errors propagate
unchanged, as they are not `KeyError`s). -/
def grab_payload_from_pyxwin_packages (pyxwin_packages : PyxwinPackages) (item_id : String)
    (kind : PayloadType) (crt_version : List Nat) (spectre_hardened : Bool) :
    Except PyErr CRTPayload :=
  match lookupPkg pyxwin_packages item_id with
  | none =>
    .error (.unsupported
      ("CRT header / library package '" ++ item_id ++ "' may not be available."))
  | some [] => .error (.runtime "list index out of range")
  | some (item :: _) => CRTPayload.from_manifest_item item kind crt_version spectre_hardened

/-- Python `dict` insertion semantics: assigning to an existing key keeps
its position and replaces the value; a new key is appended. -/
def pyDictInsert {α : Type} : List (String × α) → String → α → List (String × α)
  | [], k, v => [(k, v)]
  | (k0, v0) :: rest, k, v =>
    if k0 = k then (k0, v) :: rest else (k0, v0) :: pyDictInsert rest k v

/-- Python `dict.update`: insert the entries of `other` in order. -/
def pyDictUpdate {α : Type} (m other : List (String × α)) : List (String × α) :=
  other.foldl (fun acc kv => pyDictInsert acc kv.1 kv.2) m

/-- Python `dict` lookup on the model. -/
def lookupD {α : Type} : List (String × α) → String → Option α
  | [], _ => none
  | (k, v) :: rest, q => if k = q then some v else lookupD rest q

/-- A selector request: the package id to grab together with the payload
kind and spectre flag to grab it with. -/
abbrev Req := String × PayloadType × Bool

/-- Run a sequence of grab requests, accumulating a Python dict and
stopping at the first error — the evaluation skeleton shared by
`_get_crt_libs`, `_get_atl_libs` and `get_toolchain_artifact`. -/
def runReqs (pyxwin_packages : PyxwinPackages) (crt_version : List Nat) :
    List Req → List (String × CRTPayload) → Except PyErr (List (String × CRTPayload))
  | [], acc => .ok acc
  | (item_id, kind, sp) :: rest, acc =>
    match grab_payload_from_pyxwin_packages pyxwin_packages item_id kind crt_version sp with
    | .error e => .error e
    | .ok p => runReqs pyxwin_packages crt_version rest (pyDictInsert acc item_id p)

/-- The variant list `_get_crt_libs` iterates over: `[All]` is replaced by
the three concrete variants, any other list is used as-is. -/
def expandVariants (variant : List Variant) : List Variant :=
  if variant = [Variant.ALL] then Variant.get_all_variants else variant

/-- `itertools.product(arch, variants)` with the first factor outermost. -/
def listProd {α β : Type} (xs : List α) (ys : List β) : List (α × β) :=
  xs.flatMap (fun x => ys.map (fun y => (x, y)))

/-- The grab requests one `(arch, variant)` iteration of `_get_crt_libs`
performs: the base package, plus the spectre package when spectre
hardening is requested and the variant is not Store. -/
def crtPairReqs (include_spectre : Bool) (ver : List Nat) (av : Architecture × Variant) :
    List Req :=
  (crt_lib_id ver av.1.to_crt_package_id_str (variantStrOf av.2), PayloadType.CRT_LIBS,
      false) ::
    (if include_spectre && !(av.2 = Variant.STORE) then
      [(crt_spectre_lib_id ver av.1.to_crt_package_id_str (variantStrOf av.2),
          PayloadType.CRT_LIBS, true)]
    else [])

/-- All grab requests of `_get_crt_libs`, in execution order. -/
def crtReqs (manifest_options : ManifestOptions) (ver : List Nat) : List Req :=
  (listProd manifest_options.arch (expandVariants manifest_options.variant)).flatMap
    (crtPairReqs manifest_options.include_spectre ver)

/-- `_get_crt_libs(pyxwin_packages, manifest_options, crt_version)`. -/
def get_crt_libs (pyxwin_packages : PyxwinPackages) (manifest_options : ManifestOptions)
    (crt_version : List Nat) : Except PyErr (List (String × CRTPayload)) :=
  runReqs pyxwin_packages crt_version (crtReqs manifest_options crt_version) []

/-- The grab requests one architecture iteration of `_get_atl_libs`
performs. -/
def atlArchReqs (include_spectre : Bool) (ver : List Nat) (arch : Architecture) : List Req :=
  (atl_lib_id ver arch.to_atl_package_id_str, PayloadType.ATL_LIBS, false) ::
    (if include_spectre then
      [(atl_spectre_lib_id ver arch.to_atl_package_id_str, PayloadType.ATL_LIBS, true)]
    else [])

/-- All grab requests of `_get_atl_libs`, in execution order. -/
def atlReqs (manifest_options : ManifestOptions) (ver : List Nat) : List Req :=
  manifest_options.arch.flatMap (atlArchReqs manifest_options.include_spectre ver)

/-- `_get_atl_libs(pyxwin_packages, manifest_options, crt_version)`. -/
def get_atl_libs (pyxwin_packages : PyxwinPackages) (manifest_options : ManifestOptions)
    (crt_version : List Nat) : Except PyErr (List (String × CRTPayload)) :=
  runReqs pyxwin_packages crt_version (atlReqs manifest_options crt_version) []

/-- The CRT-version discovery prefix of `get_toolchain_artifact`:
`pyxwin_packages["Microsoft.VisualStudio.Product.BuildTools"][0]`
(`KeyError`/`IndexError` uncaught), its `dependencies` (iterating `None`
is a `TypeError`), then `discover_crt_version`. -/
def crtVersionFromIndex (pyxwin_packages : PyxwinPackages)
    (manifest_options : ManifestOptions) : Except PyErr (List Nat) :=
  match lookupPkg pyxwin_packages "Microsoft.VisualStudio.Product.BuildTools" with
  | none => .error (.keyError "Microsoft.VisualStudio.Product.BuildTools")
  | some [] => .error (.runtime "list index out of range")
  | some (build_tools :: _) =>
    match build_tools.dependencies with
    | none => .error (.runtime "argument of type NoneType is not iterable")
    | some build_dependencies =>
      discover_crt_version build_dependencies manifest_options.crt_version

/-- `get_toolchain_artifact(pyxwin_packages, manifest_options,
artifact_type)` for `artifact_type ∈ {CRT_LIBS, ATL_LIBS}` (the only two
call sites, in `prune_packages`): discover the CRT version, grab the
headers package, then update the dict with the CRT or ATL libraries. -/
def get_toolchain_artifact (pyxwin_packages : PyxwinPackages)
    (manifest_options : ManifestOptions) (artifact_type : PayloadType) :
    Except PyErr (List (String × CRTPayload)) := do
  let crt_version ← crtVersionFromIndex pyxwin_packages manifest_options
  let header ← grab_payload_from_pyxwin_packages pyxwin_packages
    (if artifact_type = PayloadType.CRT_LIBS then crt_headers_id crt_version
     else atl_headers_id crt_version)
    (if artifact_type = PayloadType.CRT_LIBS then PayloadType.CRT_HEADERS
     else PayloadType.ATL_HEADERS)
    crt_version false
  let libs ←
    if artifact_type = PayloadType.CRT_LIBS then
      get_crt_libs pyxwin_packages manifest_options crt_version
    else get_atl_libs pyxwin_packages manifest_options crt_version
  pure (pyDictUpdate
    [((if artifact_type = PayloadType.CRT_LIBS then crt_headers_id crt_version
       else atl_headers_id crt_version), header)] libs)

/-! ## SDK version discovery (`win_sdk.py`) -/

/-- Modelled from the spec: `ManifestOptions.parse_sdk_version` is called
by `get_sdk_version` in `win_sdk.py` but its definition is not present
under `src/`.  Per the spec (§3 and §4.6.3), it parses strings of the
shape `Win{W}SDK_{major.minor.patch}` (the regex
`^Win\d+SDK_\d+\.\d+\.\d+$`) into the pair `(W, version)` and fails on
anything else. -/
def parse_sdk_version (s : String) : Option (Nat × List Nat) :=
  let cs := s.data
  if isPrefB "Win".data cs then
    let rest := cs.drop 3
    let wdigits := rest.takeWhile Char.isDigit
    if wdigits.isEmpty then none
    else
      let rest2 := rest.drop wdigits.length
      if isPrefB "SDK_".data rest2 then
        let verPart := String.mk (rest2.drop 4)
        let parts := splitDot verPart
        if parts.length = 3 && parts.all isDigitStr then
          some (parseNat (String.mk wdigits), parts.map parseNat)
        else none
      else none
  else none

/-- Rendering of an SDK key: `f"Win{win_ver}SDK_{version}"`. -/
def renderSdkKey (win_ver : Nat) (version : List Nat) : String :=
  "Win" ++ natRepr win_ver ++ "SDK_" ++ renderVersion version

/-- The scan branch of `get_sdk_version`: parse every package name,
fail when none parses, otherwise take the maximum `(win_ver, version)`
pair and re-render its key. -/
def scan_sdk_versions (package_names : List String) : Except PyErr (String × List Nat) :=
  match package_names.filterMap parse_sdk_version with
  | [] => .error (.pyxwin "No valid Win*SDK_* entries found")
  | p :: ps =>
    let m := foldMax sdkPairLt p ps
    .ok (renderSdkKey m.1 m.2, m.2)

/-- `get_sdk_version(package_names, user_provided_sdk_version)`: a truthy
(non-empty) user pin is parsed and used directly to form the key;
otherwise all package names are scanned. -/
def get_sdk_version (package_names : List String) (user_provided_sdk_version : Option String) :
    Except PyErr (String × List Nat) :=
  match user_provided_sdk_version with
  | some u =>
    if u = "" then scan_sdk_versions package_names
    else
      match parse_sdk_version u with
      | none => .error (.pyxwin "No valid Win*SDK_* entries found")
      | some (win_ver, version) => .ok (renderSdkKey win_ver version, version)
  | none => scan_sdk_versions package_names

/-! ## Generic lemmas about the filesystem and hex models -/

lemma lookupFS_writeBytes_self (fs : FS) (p : String) (bs : List Nat) :
    lookupFS (writeBytes fs p bs) p = some bs := by
  simp [writeBytes, lookupFS]

lemma lookupFS_writeBytes_other (fs : FS) (p : String) (bs : List Nat) (q : String)
    (h : p ≠ q) : lookupFS (writeBytes fs p bs) q = lookupFS fs q := by
  simp [writeBytes, lookupFS, h]

/-- The sixteen lower-case hexadecimal digits. -/
def lowHexChars : List Char :=
  "0123456789abcdef".data

lemma hexChar_mem (n : Nat) (h : n < 16) : hexChar n ∈ lowHexChars := by
  interval_cases n <;> decide

lemma bytesToHex_chars (bs : List Nat) (h : ∀ b ∈ bs, b < 256) :
    ∀ c ∈ (bytesToHex bs).data, c ∈ lowHexChars := by
  intro c hc
  simp only [bytesToHex] at hc
  rcases List.mem_flatMap.mp hc with ⟨b, hb, hcb⟩
  have hb256 := h b hb
  simp only [List.mem_cons, List.not_mem_nil, or_false] at hcb
  rcases hcb with h1 | h1
  · exact h1 ▸ hexChar_mem _ (by omega)
  · exact h1 ▸ hexChar_mem _ (by omega)

/-- C10: Channel gating.  The gate in `app_callback` (which runs before the
`download` command body, hence before any network request) exits with code 1
exactly on the combinations `manifest_version ≥ 18` with channel
`release`/`pre` and `manifest_version ≤ 17` with channel `stable`/`insiders`,
and passes on every other combination. -/
theorem channel_gating_spec (manifest_version : Int) (channel : Channel) :
    (app_callback_gate manifest_version channel = some 1 ↔
      (manifest_version ≥ 18 ∧ (channel = Channel.RELEASE ∨ channel = Channel.PREVIEW)) ∨
      (manifest_version ≤ 17 ∧ (channel = Channel.STABLE ∨ channel = Channel.INSIDERS))) ∧
    (app_callback_gate manifest_version channel = none ↔
      (manifest_version ≥ 18 ∧ (channel = Channel.STABLE ∨ channel = Channel.INSIDERS)) ∨
      (manifest_version ≤ 17 ∧ (channel = Channel.RELEASE ∨ channel = Channel.PREVIEW))) := by
  cases channel <;>
    by_cases h : manifest_version ≥ 18 <;>
      simp [app_callback_gate, h] <;> omega

/-- C2: `download_and_validate` computes the SHA-256 of the fetched bytes
as lower-case hex, compares it case-insensitively with the expected value,
raises `PyxwinDownloadError` with `status_code = None` if and only if they
differ (leaving the filesystem unchanged in that case), and writes the
fetched bytes to the path exactly when they match. -/
theorem download_and_validate_spec (digest : List Nat → List Nat)
    (fetch : String → List Nat) (url file_path target_sha256 : String) (fs : FS)
    (hbytes : ∀ b ∈ digest (fetch url), b < 256) :
    (∀ c ∈ (bytesToHex (digest (fetch url))).data, c ∈ lowHexChars) ∧
    ((download_and_validate digest fetch url file_path target_sha256 fs).1.isSome ↔
      str_lower target_sha256 ≠ str_lower (bytesToHex (digest (fetch url)))) ∧
    (∀ e, (download_and_validate digest fetch url file_path target_sha256 fs).1 = some e →
      e.status_code = none ∧
        (download_and_validate digest fetch url file_path target_sha256 fs).2 = fs) ∧
    (str_lower target_sha256 = str_lower (bytesToHex (digest (fetch url))) →
      download_and_validate digest fetch url file_path target_sha256 fs =
        (none, writeBytes fs file_path (fetch url))) := by
  refine ⟨bytesToHex_chars _ hbytes, ?_, ?_, ?_⟩
  · by_cases h : str_lower target_sha256 = str_lower (bytesToHex (digest (fetch url))) <;>
      simp [download_and_validate, h]
  · intro e he
    by_cases h : str_lower target_sha256 = str_lower (bytesToHex (digest (fetch url)))
    · simp [download_and_validate, h] at he
    · simp only [download_and_validate, if_pos h] at he ⊢
      simp only [Option.some.injEq] at he
      subst he
      exact ⟨rfl, by simp [download_and_validate, if_pos h]⟩
  · intro h
    simp [download_and_validate, h]

/-- Concrete witness for the `download_and_validate` specification: the
identity "digest" of the bytes `[171]` hex-renders to `"ab"`, which matches
the expected value `"AB"` case-insensitively. -/
theorem download_and_validate_spec_witness :
    (∀ c ∈ (bytesToHex ((fun bs => bs) ([171] : List Nat))).data, c ∈ lowHexChars) ∧
    ((download_and_validate (fun bs => bs) (fun _ => [171]) "u" "p" "AB" []).1.isSome ↔
      str_lower "AB" ≠ str_lower (bytesToHex ((fun bs => bs) ([171] : List Nat)))) ∧
    (∀ e, (download_and_validate (fun bs => bs) (fun _ => [171]) "u" "p" "AB" []).1 = some e →
      e.status_code = none ∧
        (download_and_validate (fun bs => bs) (fun _ => [171]) "u" "p" "AB" []).2 = []) ∧
    (str_lower "AB" = str_lower (bytesToHex ((fun bs => bs) ([171] : List Nat))) →
      download_and_validate (fun bs => bs) (fun _ => [171]) "u" "p" "AB" [] =
        (none, writeBytes [] "p" [171])) :=
  download_and_validate_spec (fun bs => bs) (fun _ => [171]) "u" "p" "AB" []
    (by decide)

/-! ## C1: the driver's download stage performs no hash verification -/

/-- A CRT payload plan whose expected hash is 64 `a` characters. -/
def examplePayloadA : PrunedPayload :=
  .crt { filename := "file.vsix", kind := PayloadType.CRT_LIBS,
         sha256 := "aaaaaaaaaaaaaaaaaaaaaaaaaaaaaaaaaaaaaaaaaaaaaaaaaaaaaaaaaaaaaaaa",
         size := 2, target_arch := Architecture.X86_64, url := "https://example/payload",
         variant := Variant.DESKTOP, version := "14.44.17.14",
         spectre_hardened := false, install_size := none }

/-- The same plan with a contradictory expected hash (64 `b` characters). -/
def examplePayloadB : PrunedPayload :=
  setSha examplePayloadA "bbbbbbbbbbbbbbbbbbbbbbbbbbbbbbbbbbbbbbbbbbbbbbbbbbbbbbbbbbbbbbbb"

/-- A network returning the bytes `[7, 7]` for every url. -/
def exampleFetch : String → List Nat := fun _ => [7, 7]

/-- C1 (failing-input evaluation): the driver's download stage
(`download_packages`) writes the fetched bytes to
`cache_dir/downloads/{CRT_ver}/{filename}` and returns normally without
computing any hash: its result does not depend on the payloads' `sha256`
fields at all (first conjunct), and in particular two runs whose expected
hashes contradict each other both "succeed" with identical filesystem
contents (remaining conjuncts), so a SHA-256 mismatch never raises a
`Download` error in this stage, and `multi_download_and_validate` is never
invoked. -/
theorem download_packages_no_verification :
    (∀ (fetch : String → List Nat) (cache_dir : String)
        (packages : List (String × PrunedPayload)) (fs : FS) (g : String → String),
      download_packages fetch cache_dir
          (packages.map fun kv => (kv.1, setSha kv.2 (g kv.1))) fs =
        download_packages fetch cache_dir packages fs) ∧
    download_packages exampleFetch "cache"
        [("Microsoft.VC.14.44.17.14.CRT.x64.Desktop.base", examplePayloadA)] [] =
      ([("cache/downloads/CRT_14.44.17.14/file.vsix", [7, 7])],
        ["cache/downloads/CRT_14.44.17.14/file.vsix"]) ∧
    download_packages exampleFetch "cache"
        [("Microsoft.VC.14.44.17.14.CRT.x64.Desktop.base", examplePayloadB)] [] =
      download_packages exampleFetch "cache"
        [("Microsoft.VC.14.44.17.14.CRT.x64.Desktop.base", examplePayloadA)] [] := by
  refine ⟨?_, by decide, by decide⟩
  intro fetch cache_dir packages fs g
  unfold download_packages
  have aux : ∀ (l : List (String × PrunedPayload)) (init : FS × List String),
      (l.map fun kv => (kv.1, setSha kv.2 (g kv.1))).foldl
          (fun acc kv =>
            let pkg := kv.2
            let package_dir_name := (if pkg.isSdk then "SDK_" else "CRT_") ++ pkg.version
            let file_path :=
              cache_dir ++ "/downloads/" ++ package_dir_name ++ "/" ++ pkg.filename
            (writeBytes acc.1 file_path (fetch pkg.url), acc.2 ++ [file_path])) init =
        l.foldl
          (fun acc kv =>
            let pkg := kv.2
            let package_dir_name := (if pkg.isSdk then "SDK_" else "CRT_") ++ pkg.version
            let file_path :=
              cache_dir ++ "/downloads/" ++ package_dir_name ++ "/" ++ pkg.filename
            (writeBytes acc.1 file_path (fetch pkg.url), acc.2 ++ [file_path])) init := by
    intro l
    induction l with
    | nil => intro init; rfl
    | cons kv rest ih =>
      intro init
      simp only [List.map_cons, List.foldl_cons]
      have hstep : ∀ q : PrunedPayload, ∀ s,
          (setSha q s).isSdk = q.isSdk ∧ (setSha q s).version = q.version ∧
            (setSha q s).filename = q.filename ∧ (setSha q s).url = q.url := by
        intro q s; cases q <;> exact ⟨rfl, rfl, rfl, rfl⟩
      rcases hstep kv.2 (g kv.1) with ⟨h1, h2, h3, h4⟩
      rw [show (setSha kv.2 (g kv.1)).isSdk = kv.2.isSdk from h1, h2, h3, h4]
      exact ih _
  exact aux packages (fs, [])

/-- C3 (failing-input evaluation): the driver's unpack stage
(`unpack_files`) creates the extraction directory
`cache_dir/unpack/{package_dir_name}/{filename}` for every downloaded
path, but dispatches an extraction task only for `.vsix` files: an `.msi`
file is left in place exactly like a `.cab` file, with no MSI extraction
dispatched (first conjunct: a concrete run; second conjunct: in general,
every dispatched path has suffix `.vsix` and is extracted to
`cache_dir/unpack/{package_dir_name}/{filename}`). -/
theorem unpack_files_ignores_msi :
    unpack_files ["cache"]
        [["cache", "downloads", "SDK_10.0.26100", "sdk_headers.msi"],
         ["cache", "downloads", "SDK_10.0.26100", "data1.cab"],
         ["cache", "downloads", "CRT_14.44.17.14", "crt_x64.vsix"]] =
      { made_dirs := [["cache", "unpack", "SDK_10.0.26100", "sdk_headers.msi"],
                      ["cache", "unpack", "SDK_10.0.26100", "data1.cab"],
                      ["cache", "unpack", "CRT_14.44.17.14", "crt_x64.vsix"]],
        vsix_dispatch := [(["cache", "downloads", "CRT_14.44.17.14", "crt_x64.vsix"],
                           ["cache", "unpack", "CRT_14.44.17.14", "crt_x64.vsix"])] } ∧
    (∀ (cache_dir : MPath) (file_paths : List MPath),
      ∀ e ∈ (unpack_files cache_dir file_paths).vsix_dispatch,
        pySuffix (e.1.getLastD "") = ".vsix" ∧
          e.2 = cache_dir ++ ["unpack", e.1.dropLast.getLastD "", e.1.getLastD ""]) := by
  refine ⟨by decide, ?_⟩
  intro cache_dir file_paths
  unfold unpack_files
  have aux : ∀ (l : List MPath) (init : UnpackEffect),
      (∀ e ∈ init.vsix_dispatch,
        pySuffix (e.1.getLastD "") = ".vsix" ∧
          e.2 = cache_dir ++ ["unpack", e.1.dropLast.getLastD "", e.1.getLastD ""]) →
      ∀ e ∈ (l.foldl
          (fun acc fp =>
            let file_name := fp.getLastD ""
            let package_dir_name := fp.dropLast.getLastD ""
            let extract_location := cache_dir ++ ["unpack", package_dir_name, file_name]
            { made_dirs := acc.made_dirs ++ [extract_location],
              vsix_dispatch := acc.vsix_dispatch ++
                (if pySuffix file_name = ".vsix" then [(fp, extract_location)] else []) })
          init).vsix_dispatch,
        pySuffix (e.1.getLastD "") = ".vsix" ∧
          e.2 = cache_dir ++ ["unpack", e.1.dropLast.getLastD "", e.1.getLastD ""] := by
    intro l
    induction l with
    | nil => intro init hinit; exact hinit
    | cons fp rest ih =>
      intro init hinit
      simp only [List.foldl_cons]
      apply ih
      intro e he
      rcases List.mem_append.mp he with he | he
      · exact hinit e he
      · by_cases hs : pySuffix (fp.getLastD "") = ".vsix"
        · rw [if_pos hs] at he
          have := List.mem_singleton.mp he
          subst this
          exact ⟨hs, rfl⟩
        · rw [if_neg hs] at he
          exact absurd he (List.not_mem_nil e)
  exact aux file_paths { made_dirs := [], vsix_dispatch := [] } (by intro e he; cases he)

/-! ## Substring characterisation lemmas -/

lemma isPrefB_iff (a b : List Char) : isPrefB a b = true ↔ ∃ t, a ++ t = b := by
  induction a generalizing b with
  | nil => simp [isPrefB]
  | cons x xs ih =>
    cases b with
    | nil => simp [isPrefB]
    | cons y ys =>
      simp only [isPrefB, Bool.and_eq_true, decide_eq_true_eq, ih, List.cons_append,
        List.cons.injEq]
      constructor
      · rintro ⟨rfl, t, rfl⟩
        exact ⟨t, rfl, rfl⟩
      · rintro ⟨t, rfl, rfl⟩
        exact ⟨rfl, t, rfl⟩

lemma isInfB_iff (n l : List Char) : isInfB n l = true ↔ ∃ s t, s ++ n ++ t = l := by
  induction l with
  | nil =>
    simp only [isInfB, List.isEmpty_iff]
    constructor
    · rintro rfl; exact ⟨[], [], rfl⟩
    · rintro ⟨s, t, h⟩
      rcases List.append_eq_nil.mp h with ⟨h1, h2⟩
      exact (List.append_eq_nil.mp h1).2
  | cons c cs ih =>
    simp only [isInfB, Bool.or_eq_true, isPrefB_iff, ih]
    constructor
    · rintro (⟨t, ht⟩ | ⟨s, t, h⟩)
      · exact ⟨[], t, by simpa using ht⟩
      · exact ⟨c :: s, t, by simp [h]⟩
    · rintro ⟨s, t, h⟩
      cases s with
      | nil => exact Or.inl ⟨t, by simpa using h⟩
      | cons d ds =>
        simp only [List.cons_append, List.cons.injEq] at h
        exact Or.inr ⟨ds, t, h.2⟩

lemma substrOf_iff (needle hay : String) :
    substrOf needle hay = true ↔ ∃ s t, s ++ needle.data ++ t = hay.data :=
  isInfB_iff needle.data hay.data

lemma string_ext {s t : String} (h : s.data = t.data) : s = t := by
  cases s; cases t; exact congrArg String.mk h

lemma strAppend_data (a b : String) : (a ++ b).data = a.data ++ b.data :=
  String.data_append a b

lemma strAppend_cancel_left (a : String) {b c : String} (h : a ++ b = a ++ c) : b = c := by
  apply string_ext
  have := congrArg String.data h
  rw [strAppend_data, strAppend_data] at this
  exact List.append_cancel_left this

lemma strAppend_assoc (a b c : String) : a ++ b ++ c = a ++ (b ++ c) := by
  apply string_ext
  simp [strAppend_data]

/-! ## C9: the VSIX extractor's member filter -/

lemma extract_vsix_fs_untouched (entries : List (String × List Nat))
    (extract_location : String) (fs : FS) (q : String)
    (h : ∀ e ∈ entries, vsixKeep e.1 = true → extract_location ++ "/" ++ e.1 ≠ q) :
    lookupFS (extract_vsix_fs entries extract_location fs) q = lookupFS fs q := by
  induction entries generalizing fs with
  | nil => rfl
  | cons e rest ih =>
    simp only [extract_vsix_fs, List.foldl_cons]
    by_cases hk : vsixKeep e.1 = true
    · rw [if_pos hk]
      have step := ih (writeBytes fs (extract_location ++ "/" ++ e.1) e.2)
        (fun e' he' hk' => h e' (List.mem_cons_of_mem _ he') hk')
      simp only [extract_vsix_fs] at step
      rw [step, lookupFS_writeBytes_other _ _ _ _ (h e (List.mem_cons_self _ _) hk)]
    · rw [if_neg hk]
      have step := ih fs (fun e' he' hk' => h e' (List.mem_cons_of_mem _ he') hk')
      simpa only [extract_vsix_fs] using step

lemma vsixKeep_eq (name : String) :
    vsixKeep name = (substrOf "lib" name || substrOf "src" name ||
      substrOf "include" name || substrOf "crt" name) := by
  simp only [vsixKeep, required_dirs, List.any_cons, List.any_nil, Bool.or_false]
  cases substrOf "lib" name <;> cases substrOf "src" name <;>
    cases substrOf "include" name <;> cases substrOf "crt" name <;> rfl

lemma extract_vsix_fs_writes (extract_location : String) (name : String) (bytes : List Nat)
    (hk : vsixKeep name = true) :
    ∀ (entries : List (String × List Nat)), (entries.map Prod.fst).Nodup →
      (name, bytes) ∈ entries →
      ∀ fs : FS, lookupFS (extract_vsix_fs entries extract_location fs)
        (extract_location ++ "/" ++ name) = some bytes := by
  intro entries
  induction entries with
  | nil => intro _ hmem _; cases hmem
  | cons e rest ih =>
    intro hnd hmem fs
    have hnd' : (rest.map Prod.fst).Nodup := (List.nodup_cons.mp hnd).2
    rcases List.mem_cons.mp hmem with rfl | hmem'
    · simp only [extract_vsix_fs, List.foldl_cons, if_pos hk]
      have huntouched := extract_vsix_fs_untouched rest extract_location
        (writeBytes fs (extract_location ++ "/" ++ name) bytes)
        (extract_location ++ "/" ++ name) ?_
      · simpa only [extract_vsix_fs, lookupFS_writeBytes_self] using huntouched
      · intro e' he' _hk' heq
        have hne : e'.1 ≠ name := by
          intro hcontra
          have : name ∈ rest.map Prod.fst := by
            rw [← hcontra]
            exact List.mem_map_of_mem Prod.fst he'
          exact (List.nodup_cons.mp hnd).1 this
        exact hne (strAppend_cancel_left (extract_location ++ "/") heq)
    · simp only [extract_vsix_fs, List.foldl_cons]
      by_cases hke : vsixKeep e.1 = true
      · rw [if_pos hke]
        have := ih hnd' hmem' (writeBytes fs (extract_location ++ "/" ++ e.1) e.2)
        simpa only [extract_vsix_fs] using this
      · rw [if_neg hke]
        have := ih hnd' hmem' fs
        simpa only [extract_vsix_fs] using this

/-- C9: VSIX extraction extracts exactly the zip members whose path
contains one of `lib`, `src`, `include`, `crt` as a case-sensitive
substring (first conjunct characterises `files_to_extract`); each selected
member is written under the extract location at its archive-relative path
(second conjunct), and nothing else on the filesystem changes — in
particular, unselected members produce no file and no error (third
conjunct). -/
theorem vsix_extraction_spec (entries : List (String × List Nat))
    (extract_location : String) (fs : FS)
    (hnd : (entries.map Prod.fst).Nodup) :
    (∀ name, name ∈ vsix_files_to_extract (entries.map Prod.fst) ↔
      name ∈ entries.map Prod.fst ∧
        (substrOf "lib" name || substrOf "src" name ||
          substrOf "include" name || substrOf "crt" name) = true) ∧
    (∀ name bytes, (name, bytes) ∈ entries → vsixKeep name = true →
      lookupFS (extract_vsix_fs entries extract_location fs)
          (extract_location ++ "/" ++ name) = some bytes) ∧
    (∀ q, (∀ e ∈ entries, vsixKeep e.1 = true → extract_location ++ "/" ++ e.1 ≠ q) →
      lookupFS (extract_vsix_fs entries extract_location fs) q = lookupFS fs q) := by
  refine ⟨?_, ?_, fun q h => extract_vsix_fs_untouched entries extract_location fs q h⟩
  · intro name
    simp [vsix_files_to_extract, List.mem_filter, vsixKeep_eq]
  · intro name bytes hmem hk
    exact extract_vsix_fs_writes extract_location name bytes hk entries hnd hmem fs

/-- A small zip fixture: members under `include/` and `crt/` are kept,
`LIB/FOO.TXT` (upper case, so the case-sensitive filter misses it) and
`extension.vsixmanifest` are skipped. -/
def exampleZipEntries : List (String × List Nat) :=
  [("include/io.h", [1]), ("crt/a.c", [2]), ("LIB/FOO.TXT", [3]),
   ("extension.vsixmanifest", [4])]

/-- Concrete witness for the VSIX extraction specification. -/
theorem vsix_extraction_spec_witness :
    lookupFS (extract_vsix_fs exampleZipEntries "out" []) ("out" ++ "/" ++ "include/io.h") =
      some [1] :=
  (vsix_extraction_spec exampleZipEntries "out" [] (by decide)).2.1 "include/io.h" [1]
    (by decide) (by decide)

/-! ## Order-theoretic lemmas for the version comparator -/

lemma cmpZeros_ne_gt : ∀ ys, cmpZeros ys ≠ Ordering.gt := by
  intro ys
  induction ys with
  | nil => simp [cmpZeros]
  | cons y ys ih => by_cases h : 0 < y <;> simp [cmpZeros, h, ih]

lemma cmpV_swap : ∀ a b, cmpV b a = (cmpV a b).swap := by
  intro a
  induction a with
  | nil =>
    intro b
    cases b with
    | nil => rfl
    | cons y ys => rfl
  | cons x xs ih =>
    intro b
    cases b with
    | nil =>
      show cmpZeros (x :: xs) = ((cmpZeros (x :: xs)).swap).swap
      rw [Ordering.swap_swap]
    | cons y ys =>
      rcases Nat.lt_trichotomy x y with h | h | h
      · simp [cmpV, h, Nat.lt_asymm h, Ordering.swap]
      · subst h
        simp [cmpV, Nat.lt_irrefl, ih ys]
      · simp [cmpV, h, Nat.lt_asymm h, Ordering.swap]

lemma cmpV_lt_trans_aux : ∀ (n : Nat) (a b c : List Nat),
    a.length + b.length + c.length ≤ n →
    cmpV a b = Ordering.lt → cmpV b c ≠ Ordering.gt → cmpV a c = Ordering.lt := by
  intro n
  induction n with
  | zero =>
    intro a b c hlen h1 _
    have ha : a = [] := List.length_eq_zero.mp (by omega)
    have hb : b = [] := List.length_eq_zero.mp (by omega)
    subst ha; subst hb
    simp [cmpV, cmpZeros] at h1
  | succ n ih =>
    intro a b c hlen h1 h2
    match a, b, c with
    | [], [], _ => simp [cmpV, cmpZeros] at h1
    | [], y :: ys, [] =>
      exfalso
      apply h2
      have hlt : cmpZeros (y :: ys) = Ordering.lt := h1
      rw [show cmpV (y :: ys) [] = (cmpZeros (y :: ys)).swap from rfl, hlt]
      rfl
    | [], y :: ys, z :: zs =>
      show cmpZeros (z :: zs) = Ordering.lt
      by_cases hz : 0 < z
      · simp [cmpZeros, hz]
      · have hz0 : z = 0 := by omega
        subst hz0
        rw [show cmpZeros (0 :: zs) = cmpZeros zs by simp [cmpZeros]]
        by_cases hy : 0 < y
        · exfalso
          apply h2
          rw [show cmpV (y :: ys) (0 :: zs) = Ordering.gt by
            simp only [cmpV]
            rw [if_neg (by omega), if_pos hy]]
        · have hy0 : y = 0 := by omega
          subst hy0
          have h1' : cmpV [] ys = Ordering.lt := by
            have : cmpZeros (0 :: ys) = Ordering.lt := h1
            rw [show cmpZeros (0 :: ys) = cmpZeros ys by simp [cmpZeros]] at this
            exact this
          have h2' : cmpV ys zs ≠ Ordering.gt := by
            intro hgt
            apply h2
            show (if (0 : Nat) < 0 then Ordering.lt
              else if (0 : Nat) < 0 then Ordering.gt else cmpV ys zs) = Ordering.gt
            simpa using hgt
          exact ih [] ys zs (by simp at hlen ⊢; omega) h1' h2'
    | x :: xs, [], c =>
      exfalso
      have : cmpZeros (x :: xs) = Ordering.gt := by
        have hswap : (cmpZeros (x :: xs)).swap = Ordering.lt := h1
        cases hcz : cmpZeros (x :: xs) <;> rw [hcz] at hswap <;> first | rfl | cases hswap
      exact cmpZeros_ne_gt _ this
    | x :: xs, y :: ys, [] =>
      have h2' : cmpZeros (y :: ys) ≠ Ordering.lt := by
        intro hlt
        apply h2
        rw [show cmpV (y :: ys) [] = (cmpZeros (y :: ys)).swap from rfl, hlt]
        rfl
      by_cases hy : 0 < y
      · exact absurd (by simp [cmpZeros, hy]) h2'
      · have hy0 : y = 0 := by omega
        subst hy0
        have hys : cmpZeros ys ≠ Ordering.lt := by
          intro hlt
          exact h2' (by rw [show cmpZeros (0 :: ys) = cmpZeros ys by simp [cmpZeros]]; exact hlt)
        have hx0 : x = 0 := by
          by_contra hx
          have hxpos : 0 < x := by omega
          have : cmpV (x :: xs) (0 :: ys) = Ordering.gt := by
            simp only [cmpV]
            rw [if_neg (by omega), if_pos hxpos]
          rw [this] at h1
          cases h1
        subst hx0
        have h1' : cmpV xs ys = Ordering.lt := by
          have : (if (0 : Nat) < 0 then Ordering.lt
            else if (0 : Nat) < 0 then Ordering.gt else cmpV xs ys) = Ordering.lt := h1
          simpa using this
        have h2'' : cmpV ys [] ≠ Ordering.gt := by
          intro hgt
          rw [show cmpV ys [] = (cmpV [] ys).swap from cmpV_swap [] ys] at hgt
          have : cmpV [] ys = Ordering.lt := by
            cases hcz : cmpV [] ys <;> rw [hcz] at hgt <;> first | rfl | cases hgt
          exact hys this
        have := ih xs ys [] (by simp at hlen ⊢; omega) h1' h2''
        rw [show cmpV (0 :: xs) [] = (cmpZeros (0 :: xs)).swap from rfl]
        rw [show cmpZeros (0 :: xs) = cmpZeros xs by simp [cmpZeros]]
        rw [show cmpV xs [] = (cmpV [] xs).swap from cmpV_swap [] xs] at this
        have hxslt : cmpV [] xs = Ordering.gt := by
          cases hcz : cmpV [] xs <;> rw [hcz] at this <;> first | rfl | cases this
        exact absurd hxslt (cmpZeros_ne_gt xs)
    | x :: xs, y :: ys, z :: zs =>
      simp only [cmpV] at h1 h2 ⊢
      rcases Nat.lt_trichotomy x y with hxy | hxy | hxy
      · rcases Nat.lt_trichotomy y z with hyz | hyz | hyz
        · simp [show x < z by omega]
        · subst hyz; simp [hxy]
        · rw [if_neg (by omega), if_pos hyz] at h2
          exact absurd rfl h2
      · subst hxy
        rw [if_neg (Nat.lt_irrefl x)] at h1
        rw [if_neg (Nat.lt_irrefl x)] at h1
        rcases Nat.lt_trichotomy x z with hxz | hxz | hxz
        · simp [hxz]
        · subst hxz
          rw [if_neg (Nat.lt_irrefl x), if_neg (Nat.lt_irrefl x)] at h2 ⊢
          exact ih xs ys zs (by simp at hlen ⊢; omega) h1 h2
        · rw [if_neg (by omega), if_pos hxz] at h2
          exact absurd rfl h2
      · rw [if_neg (by omega), if_pos hxy] at h1
        cases h1

lemma cmpV_lt_trans {a b c : List Nat} (h1 : cmpV a b = Ordering.lt)
    (h2 : cmpV b c ≠ Ordering.gt) : cmpV a c = Ordering.lt :=
  cmpV_lt_trans_aux (a.length + b.length + c.length) a b c le_rfl h1 h2

/-- Python `max` over a non-empty list returns an element that no other
element strictly exceeds, for any strict order with transitivity,
asymmetry, and transitivity along non-strict bounds. -/
lemma foldMax_spec {α : Type} (lt : α → α → Bool)
    (htrans : ∀ a b c, lt a b = true → lt b c = true → lt a c = true)
    (hasymm : ∀ a b, lt a b = true → lt b a = false)
    (hneg : ∀ a b c, lt a b = true → lt c b = false → lt a c = true) :
    ∀ (xs : List α) (x : α),
      foldMax lt x xs ∈ x :: xs ∧ ∀ y ∈ x :: xs, lt (foldMax lt x xs) y = false := by
  intro xs
  induction xs with
  | nil =>
    intro x
    refine ⟨List.mem_singleton.mpr rfl, ?_⟩
    intro y hy
    rcases List.mem_singleton.mp hy with rfl
    show lt y y = false
    cases hh : lt y y with
    | false => rfl
    | true =>
      have := hasymm y y hh
      rw [this] at hh
      cases hh
  | cons y ys ih =>
    intro x
    by_cases hxy : lt x y = true
    · have hfold : foldMax lt x (y :: ys) = foldMax lt y ys := by
        rw [show foldMax lt x (y :: ys) = foldMax lt (if lt x y then y else x) ys from rfl,
          if_pos hxy]
      rcases ih y with ⟨hmem, hbound⟩
      refine ⟨?_, ?_⟩
      · rw [hfold]
        exact List.mem_cons_of_mem _ hmem
      · intro z hz
        rw [hfold]
        rcases List.mem_cons.mp hz with rfl | hz'
        · cases hh : lt (foldMax lt y ys) z with
          | false => rfl
          | true =>
            have hy' : lt (foldMax lt y ys) y = false := hbound y (List.mem_cons_self _ _)
            have hcontra : lt (foldMax lt y ys) y = true := htrans _ _ _ hh hxy
            rw [hy'] at hcontra
            cases hcontra
        · exact hbound z hz'
    · have hxyf : lt x y = false := by
        cases hc : lt x y with
        | false => rfl
        | true => exact absurd hc hxy
      have hfold : foldMax lt x (y :: ys) = foldMax lt x ys := by
        rw [show foldMax lt x (y :: ys) = foldMax lt (if lt x y then y else x) ys from rfl,
          if_neg hxy]
      rcases ih x with ⟨hmem, hbound⟩
      refine ⟨?_, ?_⟩
      · rw [hfold]
        rcases List.mem_cons.mp hmem with h | h
        · rw [h]
          exact List.mem_cons_self _ _
        · exact List.mem_cons_of_mem _ (List.mem_cons_of_mem _ h)
      · intro z hz
        rw [hfold]
        rcases List.mem_cons.mp hz with rfl | hz'
        · exact hbound z (List.mem_cons_self _ _)
        · rcases List.mem_cons.mp hz' with rfl | hz''
          · cases hh : lt (foldMax lt x ys) z with
            | false => rfl
            | true =>
              have hx' : lt (foldMax lt x ys) x = false := hbound x (List.mem_cons_self _ _)
              have hcontra : lt (foldMax lt x ys) x = true := hneg _ _ _ hh hxyf
              rw [hx'] at hcontra
              cases hcontra
          · exact hbound z (List.mem_cons_of_mem _ hz'')

lemma versionLt_trans (a b c : List Nat) (h1 : versionLtB a b = true)
    (h2 : versionLtB b c = true) : versionLtB a c = true := by
  simp only [versionLtB, decide_eq_true_eq] at h1 h2 ⊢
  exact cmpV_lt_trans h1 (by rw [h2]; intro h; cases h)

lemma versionLt_asymm (a b : List Nat) (h : versionLtB a b = true) :
    versionLtB b a = false := by
  simp only [versionLtB, decide_eq_true_eq] at h
  simp only [versionLtB, decide_eq_false_iff_not]
  rw [cmpV_swap a b, h]
  intro hc
  cases hc

lemma versionLt_neg (a b c : List Nat) (h1 : versionLtB a b = true)
    (h2 : versionLtB c b = false) : versionLtB a c = true := by
  simp only [versionLtB, decide_eq_true_eq, decide_eq_false_iff_not] at h1 h2 ⊢
  refine cmpV_lt_trans h1 ?_
  rw [cmpV_swap c b]
  cases hcb : cmpV c b with
  | lt => exact absurd hcb h2
  | eq => decide
  | gt => decide

lemma sdkPairLt_trans (a b c : Nat × List Nat) (h1 : sdkPairLt a b = true)
    (h2 : sdkPairLt b c = true) : sdkPairLt a c = true := by
  simp only [sdkPairLt, Bool.or_eq_true, Bool.and_eq_true, decide_eq_true_eq] at h1 h2 ⊢
  rcases h1 with h1 | ⟨h1e, h1v⟩ <;> rcases h2 with h2 | ⟨h2e, h2v⟩
  · exact Or.inl (by omega)
  · exact Or.inl (by omega)
  · exact Or.inl (by omega)
  · exact Or.inr ⟨by omega, versionLt_trans _ _ _ h1v h2v⟩

lemma sdkPairLt_asymm (a b : Nat × List Nat) (h : sdkPairLt a b = true) :
    sdkPairLt b a = false := by
  simp only [sdkPairLt, Bool.or_eq_true, Bool.and_eq_true, decide_eq_true_eq] at h
  cases hlt : sdkPairLt b a with
  | false => rfl
  | true =>
    exfalso
    simp only [sdkPairLt, Bool.or_eq_true, Bool.and_eq_true, decide_eq_true_eq] at hlt
    rcases h with h | ⟨he, hv⟩ <;> rcases hlt with h2 | ⟨h2e, h2v⟩
    · omega
    · omega
    · omega
    · have := versionLt_asymm _ _ hv
      rw [h2v] at this
      cases this

lemma sdkPairLt_neg (a b c : Nat × List Nat) (h1 : sdkPairLt a b = true)
    (h2 : sdkPairLt c b = false) : sdkPairLt a c = true := by
  simp only [sdkPairLt, Bool.or_eq_true, Bool.and_eq_true, decide_eq_true_eq] at h1 ⊢
  have h2' : ¬ (c.1 < b.1 ∨ (c.1 = b.1 ∧ versionLtB c.2 b.2 = true)) := by
    intro hc
    have hcontra : sdkPairLt c b = true := by
      simp only [sdkPairLt, Bool.or_eq_true, Bool.and_eq_true, decide_eq_true_eq]
      exact hc
    rw [h2] at hcontra
    cases hcontra
  push_neg at h2'
  rcases h2' with ⟨h2a, h2b⟩
  rcases h1 with h1 | ⟨h1e, h1v⟩
  · exact Or.inl (by omega)
  · by_cases hec : c.1 = b.1
    · refine Or.inr ⟨by omega, ?_⟩
      have hvf : versionLtB c.2 b.2 = false := by
        cases hvv : versionLtB c.2 b.2 with
        | false => rfl
        | true => exact absurd hvv (h2b hec)
      exact versionLt_neg _ _ _ h1v hvf
    · exact Or.inl (by omega)

/-! ## C5: CRT version discovery -/

lemma all4_eq (p0 p1 p2 p3 : String) :
    ([p0, p1, p2, p3].all isDigitStr) =
      (isDigitStr p0 && isDigitStr p1 && isDigitStr p2 && isDigitStr p3) := by
  simp [List.all_cons, List.all_nil, Bool.and_assoc]

lemma find4_first : ∀ (parts : List String) (w : List String), find4 parts = some w →
    ∃ i, i + 4 ≤ parts.length ∧ w = (parts.drop i).take 4 ∧
      ((parts.drop i).take 4).all isDigitStr = true ∧
      ∀ j, j < i → ((parts.drop j).take 4).all isDigitStr = false := by
  intro parts
  induction parts with
  | nil => intro w h; cases h
  | cons p0 tail ih =>
    intro w h
    match tail, ih, h with
    | [], _, h => rw [show find4 [p0] = none from rfl] at h; cases h
    | [p1], _, h => rw [show find4 [p0, p1] = none from rfl] at h; cases h
    | [p1, p2], _, h => rw [show find4 [p0, p1, p2] = none from rfl] at h; cases h
    | p1 :: p2 :: p3 :: rest, ih, h =>
      by_cases hc : (isDigitStr p0 && isDigitStr p1 && isDigitStr p2 && isDigitStr p3) = true
      · rw [show find4 (p0 :: p1 :: p2 :: p3 :: rest) =
            (if isDigitStr p0 && isDigitStr p1 && isDigitStr p2 && isDigitStr p3 then
              some [p0, p1, p2, p3]
            else find4 (p1 :: p2 :: p3 :: rest)) from rfl, if_pos hc] at h
        refine ⟨0, by simp only [List.length_cons]; omega, ?_, ?_,
          fun j hj => absurd hj (by omega)⟩
        · cases h
          rfl
        · show ([p0, p1, p2, p3].all isDigitStr) = true
          rw [all4_eq]
          exact hc
      · rw [show find4 (p0 :: p1 :: p2 :: p3 :: rest) =
            (if isDigitStr p0 && isDigitStr p1 && isDigitStr p2 && isDigitStr p3 then
              some [p0, p1, p2, p3]
            else find4 (p1 :: p2 :: p3 :: rest)) from rfl, if_neg hc] at h
        rcases ih w h with ⟨i, hlen, hw, hall, hbound⟩
        refine ⟨i + 1, ?_, ?_, ?_, ?_⟩
        · simp only [List.length_cons] at hlen ⊢
          omega
        · rw [List.drop_succ_cons]
          exact hw
        · rw [List.drop_succ_cons]
          exact hall
        · intro j hj
          cases j with
          | zero =>
            show ([p0, p1, p2, p3].all isDigitStr) = false
            rw [all4_eq]
            cases hcb : (isDigitStr p0 && isDigitStr p1 && isDigitStr p2 && isDigitStr p3) with
            | false => rfl
            | true => exact absurd hcb hc
          | succ j' =>
            rw [List.drop_succ_cons]
            exact hbound j' (by omega)

lemma mem_crtVersionsOf (build_dependencies : List String) (v : List Nat) :
    v ∈ crtVersionsOf build_dependencies ↔
      ∃ key ∈ build_dependencies, strEndsWith key ".x86.x64" = true ∧
        ∃ s, extract_version key = some s ∧ v = parseVersionStr s := by
  simp only [crtVersionsOf, List.mem_filterMap]
  constructor
  · rintro ⟨key, hk, heq⟩
    by_cases he : strEndsWith key ".x86.x64" = true
    · rw [if_pos he] at heq
      cases hev : extract_version key with
      | none => rw [hev] at heq; cases heq
      | some s =>
        rw [hev] at heq
        refine ⟨key, hk, he, s, hev, ?_⟩
        exact (Option.some.inj heq).symm
    · rw [if_neg he] at heq
      cases heq
  · rintro ⟨key, hk, he, s, hev, rfl⟩
    exact ⟨key, hk, by rw [if_pos he, hev]⟩

/-- C5: CRT version discovery considers exactly the BuildTools dependency
keys ending in `.x86.x64` whose id contains four consecutive numeric
dot-separated segments, taking the first such window as the version
(conjuncts 1 and 2); a pinned `cfg.crt_version` that is not in this set
raises `UnsupportedPackageConfiguration` (conjunct 3); a pin that is
present is used as-is (conjunct 4); with no pin the maximum of the set is
chosen (conjunct 5: the result is a member that no candidate strictly
exceeds in PEP-440 order). -/
theorem crt_version_discovery_spec (build_dependencies : List String) :
    (∀ v, v ∈ crtVersionsOf build_dependencies ↔
      ∃ key ∈ build_dependencies, strEndsWith key ".x86.x64" = true ∧
        ∃ s, extract_version key = some s ∧ v = parseVersionStr s) ∧
    (∀ (parts : List String) (w : List String), find4 parts = some w →
      ∃ i, i + 4 ≤ parts.length ∧ w = (parts.drop i).take 4 ∧
        ((parts.drop i).take 4).all isDigitStr = true ∧
        ∀ j, j < i → ((parts.drop j).take 4).all isDigitStr = false) ∧
    (∀ s, (crtVersionsOf build_dependencies).any
        (fun x => versionEqB x (parseVersionStr s)) = false →
      discover_crt_version build_dependencies (some s) =
        .error (.unsupported ("Specified CRT version '" ++ s ++ "' is not available."))) ∧
    (∀ s, (crtVersionsOf build_dependencies).any
        (fun x => versionEqB x (parseVersionStr s)) = true →
      discover_crt_version build_dependencies (some s) = .ok (parseVersionStr s)) ∧
    (∀ v vs, crtVersionsOf build_dependencies = v :: vs →
      discover_crt_version build_dependencies none = .ok (foldMax versionLtB v vs) ∧
        foldMax versionLtB v vs ∈ v :: vs ∧
        ∀ x ∈ v :: vs, versionLtB (foldMax versionLtB v vs) x = false) := by
  refine ⟨mem_crtVersionsOf build_dependencies, find4_first, ?_, ?_, ?_⟩
  · intro s hs
    simp only [discover_crt_version, hs]
    rfl
  · intro s hs
    simp only [discover_crt_version, hs]
    rfl
  · intro v vs h
    refine ⟨?_, foldMax_spec versionLtB versionLt_trans versionLt_asymm versionLt_neg vs v⟩
    simp only [discover_crt_version, h]

/-- A small BuildTools dependency fixture with two CRT versions. -/
def exampleBuildDeps : List String :=
  ["Microsoft.VisualStudio.Component.VC.14.44.17.14.x86.x64",
   "Microsoft.VisualStudio.Component.VC.14.42.17.12.x86.x64",
   "Microsoft.VisualStudio.Component.Windows11SDK.26100"]

/-- Concrete witness for CRT version discovery: an absent pin errors, a
present pin is used, and the scan without a pin picks the maximum. -/
theorem crt_version_discovery_spec_witness :
    discover_crt_version exampleBuildDeps (some "99.0.0.0") =
        .error (.unsupported
          ("Specified CRT version '" ++ "99.0.0.0" ++ "' is not available.")) ∧
    discover_crt_version exampleBuildDeps (some "14.42.17.12") =
        .ok (parseVersionStr "14.42.17.12") ∧
    discover_crt_version exampleBuildDeps none =
        .ok (foldMax versionLtB [14, 44, 17, 14] [[14, 42, 17, 12]]) :=
  ⟨(crt_version_discovery_spec exampleBuildDeps).2.2.1 "99.0.0.0" (by decide),
   (crt_version_discovery_spec exampleBuildDeps).2.2.2.1 "14.42.17.12" (by decide),
   ((crt_version_discovery_spec exampleBuildDeps).2.2.2.2 [14, 44, 17, 14]
     [[14, 42, 17, 12]] (by decide)).1⟩

/-! ## C4: SDK version discovery -/

/-- C4: SDK version discovery scans all package-index keys for those
parseable as `Win{W}SDK_{major.minor.patch}` (conjunct 1); a set (truthy)
`cfg.sdk_version` is parsed and used directly to form the SDK key
(conjunct 2); otherwise the maximum `(W, version)` pair is chosen and its
key and version are returned (conjunct 3: the chosen pair is a parsed pair
that no parsed pair strictly exceeds in the Python tuple order). -/
theorem sdk_version_discovery_spec (package_names : List String) :
    (∀ w v, (w, v) ∈ package_names.filterMap parse_sdk_version ↔
      ∃ key ∈ package_names, parse_sdk_version key = some (w, v)) ∧
    (∀ u w v, parse_sdk_version u = some (w, v) → u ≠ "" →
      get_sdk_version package_names (some u) = .ok (renderSdkKey w v, v)) ∧
    (∀ p ps, package_names.filterMap parse_sdk_version = p :: ps →
      get_sdk_version package_names none =
          .ok (renderSdkKey (foldMax sdkPairLt p ps).1 (foldMax sdkPairLt p ps).2,
            (foldMax sdkPairLt p ps).2) ∧
        foldMax sdkPairLt p ps ∈ p :: ps ∧
        ∀ x ∈ p :: ps, sdkPairLt (foldMax sdkPairLt p ps) x = false) := by
  refine ⟨?_, ?_, ?_⟩
  · intro w v
    exact List.mem_filterMap
  · intro u w v hp hu
    simp only [get_sdk_version, if_neg hu, hp]
  · intro p ps h
    refine ⟨?_, foldMax_spec sdkPairLt sdkPairLt_trans sdkPairLt_asymm sdkPairLt_neg ps p⟩
    show scan_sdk_versions package_names = _
    simp only [scan_sdk_versions, h]

/-- A small package-name fixture with two SDK keys. -/
def exampleSdkNames : List String :=
  ["Win11SDK_10.0.26100", "Win10SDK_10.0.19041", "Microsoft.VisualStudio.Product.BuildTools"]

/-- Concrete witness for SDK version discovery: a pin is used directly,
and the scan picks the maximum pair. -/
theorem sdk_version_discovery_spec_witness :
    get_sdk_version exampleSdkNames (some "Win10SDK_10.0.19041") =
        .ok (renderSdkKey 10 [10, 0, 19041], [10, 0, 19041]) ∧
    get_sdk_version exampleSdkNames none =
        .ok (renderSdkKey
              (foldMax sdkPairLt (11, [10, 0, 26100]) [(10, [10, 0, 19041])]).1
              (foldMax sdkPairLt (11, [10, 0, 26100]) [(10, [10, 0, 19041])]).2,
            (foldMax sdkPairLt (11, [10, 0, 26100]) [(10, [10, 0, 19041])]).2) :=
  ⟨(sdk_version_discovery_spec exampleSdkNames).2.1 "Win10SDK_10.0.19041" 10 [10, 0, 19041]
      (by decide) (by decide),
   ((sdk_version_discovery_spec exampleSdkNames).2.2 (11, [10, 0, 26100])
      [(10, [10, 0, 19041])] (by decide)).1⟩

/-! ## Substring reasoning for package ids with a symbolic version segment

Every package id the selector builds has the shape
`"Microsoft.VC." ++ version ++ tail` where the version renders to digits
and dots only.  The lemmas here let a substring test on such an id be
reduced to the same test on the concrete tail: a needle that starts with a
letter, does not occur in `"Microsoft.VC."`, and cannot straddle its end,
occurs in the id exactly when it occurs in the tail. -/

lemma isSufB_iff (x b : List Char) : isSufB x b = true ↔ ∃ u, u ++ x = b := by
  simp only [isSufB, isPrefB_iff]
  constructor
  · rintro ⟨t, ht⟩
    refine ⟨t.reverse, ?_⟩
    rw [← List.reverse_reverse b, ← ht]
    simp
  · rintro ⟨u, rfl⟩
    exact ⟨u.reverse, by simp⟩

lemma prefix_split {n a b : List Char} (h : ∃ r, n ++ r = a ++ b) :
    (∃ r, n ++ r = a) ∨ (∃ u, n = a ++ u ∧ ∃ r, u ++ r = b) := by
  induction a generalizing n with
  | nil =>
    right
    exact ⟨n, rfl, h⟩
  | cons x a' ih =>
    cases n with
    | nil => exact Or.inl ⟨x :: a', rfl⟩
    | cons y n' =>
      rcases h with ⟨r, hr⟩
      simp only [List.cons_append, List.cons.injEq] at hr
      rcases hr with ⟨rfl, hr⟩
      rcases ih ⟨r, hr⟩ with ⟨r', hr'⟩ | ⟨u, hu, hrest⟩
      · exact Or.inl ⟨r', by rw [List.cons_append, hr']⟩
      · exact Or.inr ⟨u, by rw [List.cons_append, hu], hrest⟩

lemma infix_append_cases : ∀ {a n b s t : List Char},
    s ++ n ++ t = a ++ b →
    (∃ s' t', s' ++ n ++ t' = a) ∨ (∃ s' t', s' ++ n ++ t' = b) ∨
    (∃ n1 n2, n = n1 ++ n2 ∧ n1 ≠ [] ∧ n2 ≠ [] ∧ (∃ u, u ++ n1 = a) ∧ (∃ r, n2 ++ r = b)) := by
  intro a
  induction a with
  | nil =>
    intro n b s t h
    exact Or.inr (Or.inl ⟨s, t, by simpa using h⟩)
  | cons x a' ih =>
    intro n b s t h
    cases s with
    | nil =>
      cases n with
      | nil => exact Or.inl ⟨[], x :: a', by simp⟩
      | cons y n' =>
        simp only [List.nil_append, List.cons_append, List.cons.injEq] at h
        rcases h with ⟨rfl, h⟩
        rcases prefix_split (b := b) ⟨t, h⟩ with ⟨r, hr⟩ | ⟨u, hu, r, hur⟩
        · exact Or.inl ⟨[], r, by simp [List.cons_append, hr]⟩
        · cases u with
          | nil =>
            simp only [List.append_nil] at hu
            exact Or.inl ⟨[], [], by simp [hu]⟩
          | cons u0 u' =>
            refine Or.inr (Or.inr ⟨y :: a', u0 :: u', ?_, by simp, by simp, ⟨[], rfl⟩,
              ⟨r, hur⟩⟩)
            rw [List.cons_append, ← hu]
    | cons z s' =>
      simp only [List.cons_append, List.cons.injEq] at h
      rcases h with ⟨rfl, h⟩
      rcases ih h with ⟨s'', t'', h''⟩ | hmid | ⟨n1, n2, hn12, h1, h2, ⟨u, hu⟩, hpre⟩
      · refine Or.inl ⟨z :: s'', t'', ?_⟩
        simp only [List.cons_append, List.append_assoc] at h'' ⊢
        rw [h'']
      · exact Or.inr (Or.inl hmid)
      · exact Or.inr (Or.inr ⟨n1, n2, hn12, h1, h2, ⟨z :: u, by rw [List.cons_append, hu]⟩,
          hpre⟩)

/-- Can the needle `n` be split into a non-empty suffix of `a` followed by
a non-empty remainder?  Decidable straddle check used to rule out matches
across the end of a concrete prefix. -/
def spanCheck (n a : List Char) : Bool :=
  (List.range (n.length + 1)).any (fun k =>
    !(n.take k).isEmpty && !(n.drop k).isEmpty && isSufB (n.take k) a)

lemma spanCheck_of_split {n n1 n2 a : List Char} (hn : n = n1 ++ n2) (h1 : n1 ≠ [])
    (h2 : n2 ≠ []) (hsuf : ∃ u, u ++ n1 = a) : spanCheck n a = true := by
  apply List.any_eq_true.mpr
  refine ⟨n1.length, List.mem_range.mpr ?_, ?_⟩
  · rw [hn]
    simp only [List.length_append]
    omega
  · have ht : n.take n1.length = n1 := by rw [hn]; exact List.take_left n1 n2
    have hd : n.drop n1.length = n2 := by rw [hn]; exact List.drop_left n1 n2
    rw [ht, hd]
    have e1 : n1.isEmpty = false := by
      cases n1 with
      | nil => exact absurd rfl h1
      | cons _ _ => rfl
    have e2 : n2.isEmpty = false := by
      cases n2 with
      | nil => exact absurd rfl h2
      | cons _ _ => rfl
    rw [e1, e2, (isSufB_iff _ _).mpr hsuf]
    rfl

/-- Does the needle start with a character that cannot occur in a rendered
version? -/
def headNotDD : List Char → Bool
  | [] => false
  | c :: _ => !(decide (c ∈ ddChars))

lemma headNotDD_spec {n : List Char} (h : headNotDD n = true) :
    ∃ c cs, n = c :: cs ∧ c ∉ ddChars := by
  cases n with
  | nil => cases h
  | cons c cs =>
    refine ⟨c, cs, rfl, ?_⟩
    simp only [headNotDD, Bool.not_eq_true', decide_eq_false_iff_not] at h
    exact h

lemma substrOf_reduce (n A R B : String)
    (hR : ∀ c ∈ R.data, c ∈ ddChars)
    (hhead : headNotDD n.data = true)
    (hA : substrOf n A = false)
    (hspan : spanCheck n.data A.data = false) :
    substrOf n (A ++ (R ++ B)) = substrOf n B := by
  rcases headNotDD_spec hhead with ⟨c, cs, hn, hcdd⟩
  cases hB : substrOf n B with
  | true =>
    rcases (substrOf_iff n B).mp hB with ⟨s, t, hst⟩
    apply (substrOf_iff _ _).mpr
    refine ⟨(A.data ++ R.data) ++ s, t, ?_⟩
    rw [strAppend_data, strAppend_data]
    simp only [List.append_assoc] at hst ⊢
    rw [hst]
  | false =>
    cases hW : substrOf n (A ++ (R ++ B)) with
    | false => rfl
    | true =>
      exfalso
      have hcn : c ∈ n.data := by rw [hn]; exact List.mem_cons_self c cs
      rcases (substrOf_iff _ _).mp hW with ⟨s, t, hst⟩
      rw [strAppend_data, strAppend_data] at hst
      rcases infix_append_cases hst with ⟨s1, t1, hInA⟩ | ⟨s1, t1, hInRB⟩ | hspA
      · have hfalse : substrOf n A = true := (substrOf_iff n A).mpr ⟨s1, t1, hInA⟩
        rw [hA] at hfalse
        cases hfalse
      · rcases infix_append_cases hInRB with ⟨s2, t2, hInR⟩ | ⟨s2, t2, hInB⟩ | hspR
        · have hsub : c ∈ R.data := by
            rw [← hInR]
            have hstep : c ∈ s2 ++ n.data := List.mem_append.mpr (Or.inr hcn)
            exact List.mem_append.mpr (Or.inl hstep)
          exact hcdd (hR c hsub)
        · have hfalse : substrOf n B = true := (substrOf_iff n B).mpr ⟨s2, t2, hInB⟩
          rw [hB] at hfalse
          cases hfalse
        · rcases hspR with ⟨n1, n2, hn12, h1, _h2n, ⟨u, hu⟩, _⟩
          cases n1 with
          | nil => exact h1 rfl
          | cons c1 n1' =>
            have hc1 : c1 = c := by
              rw [hn] at hn12
              simp only [List.cons_append, List.cons.injEq] at hn12
              exact hn12.1.symm
            subst hc1
            have hsub : c1 ∈ R.data := by
              rw [← hu]
              exact List.mem_append.mpr (Or.inr (List.mem_cons_self c1 n1'))
            exact hcdd (hR c1 hsub)
      · rcases hspA with ⟨n1, n2, hn12, h1, h2, hsufA, _⟩
        have hchk := spanCheck_of_split hn12 h1 h2 hsufA
        rw [hspan] at hchk
        cases hchk

/-! ## Rendered versions contain only digits and dots -/

lemma natDigitsAux_chars : ∀ (fuel n : Nat), ∀ c ∈ natDigitsAux fuel n, c ∈ ddChars := by
  intro fuel
  induction fuel with
  | zero => intro n c hc; cases hc
  | succ fuel ih =>
    intro n c hc
    simp only [natDigitsAux] at hc
    by_cases h : n < 10
    · rw [if_pos h] at hc
      rcases List.mem_singleton.mp hc with rfl
      interval_cases n <;> decide
    · rw [if_neg h] at hc
      rcases List.mem_append.mp hc with hc | hc
      · exact ih _ c hc
      · rcases List.mem_singleton.mp hc with rfl
        have hlt : n % 10 < 10 := Nat.mod_lt _ (by omega)
        generalize n % 10 = k at hlt ⊢
        interval_cases k <;> decide

lemma natRepr_chars (n : Nat) : ∀ c ∈ (natRepr n).data, c ∈ ddChars :=
  fun c hc => natDigitsAux_chars (n + 1) n c hc

lemma joinDots_chars : ∀ (ss : List String),
    (∀ s ∈ ss, ∀ c ∈ s.data, c ∈ ddChars) → ∀ c ∈ (joinDots ss).data, c ∈ ddChars := by
  intro ss
  induction ss with
  | nil => intro _ c hc; cases hc
  | cons s rest ih =>
    intro h c hc
    cases rest with
    | nil => exact h s (List.mem_cons_self s []) c hc
    | cons r rs =>
      rw [show joinDots (s :: r :: rs) = s ++ "." ++ joinDots (r :: rs) from rfl,
        strAppend_data, strAppend_data] at hc
      rcases List.mem_append.mp hc with hc | hc
      · rcases List.mem_append.mp hc with hc | hc
        · exact h s (List.mem_cons_self s (r :: rs)) c hc
        · rcases List.mem_singleton.mp hc with rfl
          decide
      · exact ih (fun s' hs' => h s' (List.mem_cons_of_mem s hs')) c hc

lemma renderVersion_chars (v : List Nat) : ∀ c ∈ (renderVersion v).data, c ∈ ddChars := by
  apply joinDots_chars
  intro s hs
  rcases List.mem_map.mp hs with ⟨m, _, rfl⟩
  exact natRepr_chars m

lemma asciiLower_ddChars (c : Char) (h : c ∈ ddChars) : asciiLower c ∈ ddChars := by
  fin_cases h <;> decide

lemma str_lower_append (a b : String) : str_lower (a ++ b) = str_lower a ++ str_lower b := by
  apply string_ext
  show ((a ++ b).data.map asciiLower) = (str_lower a ++ str_lower b).data
  rw [strAppend_data, strAppend_data, List.map_append]
  rfl

lemma str_lower_chars (s : String) (h : ∀ c ∈ s.data, c ∈ ddChars) :
    ∀ c ∈ (str_lower s).data, c ∈ ddChars := by
  intro c hc
  rcases List.mem_map.mp hc with ⟨c0, hc0, rfl⟩
  exact asciiLower_ddChars c0 (h c0 hc0)

/-! ## Reducing the inference functions over a symbolic version -/

lemma detect_arch_decomp (rv B : String) (hR : ∀ c ∈ rv.data, c ∈ ddChars)
    (kind : PayloadType) :
    detect_arch_from_id ("Microsoft.VC." ++ (rv ++ B)) kind =
      (if substrOf "arm64" (str_lower B) then .ok .AARCH64
       else if substrOf "arm" (str_lower B) then .ok .AARCH
       else if substrOf "x64" (str_lower B) then .ok .X86_64
       else if substrOf "x86" (str_lower B) then .ok .X86
       else if kind = .ATL_HEADERS ∨ kind = .CRT_HEADERS ∨ kind = .SDK_HEADERS then .ok .ALL
       else .error (.pyxwin
         "Unreachable: Manifest item does not specify a known architecture.")) := by
  have hlow : str_lower ("Microsoft.VC." ++ (rv ++ B)) =
      "microsoft.vc." ++ (str_lower rv ++ str_lower B) := by
    rw [str_lower_append, str_lower_append,
      show str_lower "Microsoft.VC." = "microsoft.vc." by decide]
  have hRlow : ∀ c ∈ (str_lower rv).data, c ∈ ddChars := str_lower_chars rv hR
  have e1 : substrOf "arm64" (str_lower ("Microsoft.VC." ++ (rv ++ B))) =
      substrOf "arm64" (str_lower B) := by
    rw [hlow]
    exact substrOf_reduce "arm64" "microsoft.vc." (str_lower rv) (str_lower B) hRlow
      (by decide) (by decide) (by decide)
  have e2 : substrOf "arm" (str_lower ("Microsoft.VC." ++ (rv ++ B))) =
      substrOf "arm" (str_lower B) := by
    rw [hlow]
    exact substrOf_reduce "arm" "microsoft.vc." (str_lower rv) (str_lower B) hRlow
      (by decide) (by decide) (by decide)
  have e3 : substrOf "x64" (str_lower ("Microsoft.VC." ++ (rv ++ B))) =
      substrOf "x64" (str_lower B) := by
    rw [hlow]
    exact substrOf_reduce "x64" "microsoft.vc." (str_lower rv) (str_lower B) hRlow
      (by decide) (by decide) (by decide)
  have e4 : substrOf "x86" (str_lower ("Microsoft.VC." ++ (rv ++ B))) =
      substrOf "x86" (str_lower B) := by
    rw [hlow]
    exact substrOf_reduce "x86" "microsoft.vc." (str_lower rv) (str_lower B) hRlow
      (by decide) (by decide) (by decide)
  simp only [detect_arch_from_id, Architecture.as_microsoft_names, e1, e2, e3, e4]

lemma detect_variant_decomp (rv B : String) (hR : ∀ c ∈ rv.data, c ∈ ddChars)
    (kind : PayloadType) :
    detect_variant_from_id ("Microsoft.VC." ++ (rv ++ B)) kind =
      (if kind = .ATL_LIBS ∨ kind = .ATL_HEADERS ∨ kind = .CRT_HEADERS ∨ kind = .SDK_HEADERS
       then .ok .ALL
       else if substrOf "OneCore.Desktop" B then .ok .ONECORE
       else if substrOf "Desktop" B then .ok .DESKTOP
       else if substrOf "Store" B then .ok .STORE
       else .error (.pyxwin
         "Unreachable: Manifest item does not specify a known variant.")) := by
  have e1 : substrOf "OneCore.Desktop" ("Microsoft.VC." ++ (rv ++ B)) =
      substrOf "OneCore.Desktop" B :=
    substrOf_reduce "OneCore.Desktop" "Microsoft.VC." rv B hR (by decide) (by decide)
      (by decide)
  have e2 : substrOf "Desktop" ("Microsoft.VC." ++ (rv ++ B)) = substrOf "Desktop" B :=
    substrOf_reduce "Desktop" "Microsoft.VC." rv B hR (by decide) (by decide) (by decide)
  have e3 : substrOf "Store" ("Microsoft.VC." ++ (rv ++ B)) = substrOf "Store" B :=
    substrOf_reduce "Store" "Microsoft.VC." rv B hR (by decide) (by decide) (by decide)
  simp only [detect_variant_from_id, variantStrOf, e1, e2, e3]

/-! ## C8: arch/variant inference round-trip -/

/-- A minimal manifest payload used by the concrete items below. -/
def examplePayload0 : ManifestPayload :=
  { sha256 := "00", size := 1, url := "https://example/p", file_name := "f.vsix" }

/-- The manifest item the selector would look up for the pair
`(arch = all, variant = Desktop)`: its id is the generated
`Microsoft.VC.14.44.17.14.CRT.all.Desktop.base`. -/
def exampleItemAllArch : ManifestItem :=
  { id := crt_lib_id [14, 44, 17, 14] Architecture.ALL.to_crt_package_id_str
      (variantStrOf Variant.DESKTOP),
    version := "14.44.17.14", payloads := some [examplePayload0],
    dependencies := none, install_sizes := none }

/-- C8 (counterexample): the pair `(arch = all, variant = Desktop)` can
occur in a Configuration (`Architecture.ALL` is a CLI-selectable value),
and the package id the selector generates for it,
`Microsoft.VC.14.44.17.14.CRT.all.Desktop.base`, does **not** round-trip:
architecture inference finds none of `arm64`/`arm`/`x64`/`x86` in the id
and, the kind being `CRT_LIBS` (not a headers kind), raises `PyxwinError`
instead of yielding `target_arch = all`. -/
theorem arch_variant_inference_cex :
    CRTPayload.from_manifest_item exampleItemAllArch PayloadType.CRT_LIBS [14, 44, 17, 14]
        false =
      .error (.pyxwin "Unreachable: Manifest item does not specify a known architecture.") := by
  rfl

/-- C8 (amended): for every CRT version and every pair of a *concrete*
architecture (`arch ≠ all`) and *concrete* variant
(Desktop/OneCore/Store), both package ids the selector generates for the
pair (the base id and the spectre id) round-trip through the
substring-based inference: `CRTPayload.from_manifest_item` succeeds with
`target_arch = arch` and `variant = variant`.  (For `arch = all` or
`variant = All` the inference raises instead; see the counterexample.) -/
theorem arch_variant_inference_roundtrip (ver : List Nat) (a : Architecture) (v : Variant)
    (item : ManifestItem) (pl : ManifestPayload) (rest : List ManifestPayload) (sp : Bool)
    (ha : a ≠ Architecture.ALL)
    (hv : v = Variant.DESKTOP ∨ v = Variant.ONECORE ∨ v = Variant.STORE)
    (hid : item.id = crt_lib_id ver a.to_crt_package_id_str (variantStrOf v) ∨
      item.id = crt_spectre_lib_id ver a.to_crt_package_id_str (variantStrOf v))
    (hpl : item.payloads = some (pl :: rest)) :
    ∃ p, CRTPayload.from_manifest_item item PayloadType.CRT_LIBS ver sp = .ok p ∧
      p.target_arch = a ∧ p.variant = v := by
  have hvar : detect_variant_from_id item.id PayloadType.CRT_LIBS = .ok v := by
    rcases hid with hid | hid <;>
      rw [hid] <;>
      simp only [crt_lib_id, crt_spectre_lib_id] <;>
      rw [detect_variant_decomp _ _ (renderVersion_chars ver)] <;>
      cases a <;> rcases hv with rfl | rfl | rfl <;>
        first
          | exact absurd rfl ha
          | rfl
  have harch : detect_arch_from_id item.id PayloadType.CRT_LIBS = .ok a := by
    rcases hid with hid | hid <;>
      rw [hid] <;>
      simp only [crt_lib_id, crt_spectre_lib_id] <;>
      rw [detect_arch_decomp _ _ (renderVersion_chars ver)] <;>
      cases a <;> rcases hv with rfl | rfl | rfl <;>
        first
          | exact absurd rfl ha
          | rfl
  refine ⟨{ filename := pl.file_name, kind := PayloadType.CRT_LIBS, sha256 := pl.sha256,
            size := pl.size, target_arch := a, url := pl.url, variant := v,
            version := renderVersion ver, spectre_hardened := sp,
            install_size :=
              match item.install_sizes with
              | none => none
              | some sizes => (sizes.find? (fun kv => kv.1 = "targetDrive")).map Prod.snd },
    ?_, rfl, rfl⟩
  unfold CRTPayload.from_manifest_item
  rw [hvar, harch, hpl]
  rfl

/-- The manifest item for the pair `(arch = x86_64, variant = Desktop)`. -/
def exampleItemX64Desktop : ManifestItem :=
  { id := crt_lib_id [14, 44, 17, 14] Architecture.X86_64.to_crt_package_id_str
      (variantStrOf Variant.DESKTOP),
    version := "14.44.17.14", payloads := some [examplePayload0],
    dependencies := none, install_sizes := none }

/-- Concrete witness for the amended round-trip: `(x86_64, Desktop)`. -/
theorem arch_variant_inference_roundtrip_witness :
    ∃ p, CRTPayload.from_manifest_item exampleItemX64Desktop PayloadType.CRT_LIBS
        [14, 44, 17, 14] false = .ok p ∧
      p.target_arch = Architecture.X86_64 ∧ p.variant = Variant.DESKTOP :=
  arch_variant_inference_roundtrip [14, 44, 17, 14] Architecture.X86_64 Variant.DESKTOP
    exampleItemX64Desktop examplePayload0 [] false (by decide) (Or.inl rfl) (Or.inl rfl)
    rfl

/-! ## Python dictionary lemmas -/

lemma pyDictInsert_cons {α : Type} (k0 : String) (v0 : α) (rest : List (String × α))
    (k : String) (v : α) :
    pyDictInsert ((k0, v0) :: rest) k v =
      if k0 = k then (k0, v) :: rest else (k0, v0) :: pyDictInsert rest k v := rfl

lemma lookupD_cons {α : Type} (k0 : String) (v0 : α) (rest : List (String × α)) (q : String) :
    lookupD ((k0, v0) :: rest) q = if k0 = q then some v0 else lookupD rest q := rfl

lemma lookupD_pyDictInsert {α : Type} :
    ∀ (m : List (String × α)) (k : String) (v : α) (q : String),
      lookupD (pyDictInsert m k v) q = if q = k then some v else lookupD m q := by
  intro m
  induction m with
  | nil =>
    intro k v q
    rw [show pyDictInsert ([] : List (String × α)) k v = [(k, v)] from rfl,
      lookupD_cons]
    by_cases hq : q = k
    · subst hq
      rw [if_pos rfl]
    · rw [if_neg (fun hc : k = q => hq hc.symm), if_neg hq]
  | cons e rest ih =>
    intro k v q
    rcases e with ⟨k0, v0⟩
    rw [pyDictInsert_cons]
    by_cases h0 : k0 = k
    · subst h0
      rw [if_pos rfl, lookupD_cons, lookupD_cons]
      by_cases hq : k0 = q
      · subst hq
        rw [if_pos rfl, if_pos rfl]
      · rw [if_neg hq, if_neg hq, if_neg (fun hc : q = k0 => hq hc.symm)]
    · rw [if_neg h0, lookupD_cons, lookupD_cons]
      by_cases hq0 : k0 = q
      · subst hq0
        rw [if_pos rfl, if_pos rfl, if_neg (fun hc : k0 = k => h0 hc)]
      · rw [if_neg hq0, if_neg hq0, ih]

lemma mem_pyDictInsert {α : Type} :
    ∀ (m : List (String × α)) (k : String) (v : α) (kv : String × α),
      kv ∈ pyDictInsert m k v → kv = (k, v) ∨ kv ∈ m := by
  intro m
  induction m with
  | nil =>
    intro k v kv h
    exact Or.inl (List.mem_singleton.mp h)
  | cons e rest ih =>
    intro k v kv h
    rcases e with ⟨k0, v0⟩
    rw [pyDictInsert_cons] at h
    by_cases h0 : k0 = k
    · subst h0
      rw [if_pos rfl] at h
      rcases List.mem_cons.mp h with rfl | h
      · exact Or.inl rfl
      · exact Or.inr (List.mem_cons_of_mem _ h)
    · rw [if_neg h0] at h
      rcases List.mem_cons.mp h with rfl | h
      · exact Or.inr (List.mem_cons_self _ _)
      · rcases ih k v kv h with h' | h'
        · exact Or.inl h'
        · exact Or.inr (List.mem_cons_of_mem _ h')

lemma keys_pyDictInsert_mem {α : Type} :
    ∀ (m : List (String × α)) (k : String) (v : α) (x : String),
      x ∈ (pyDictInsert m k v).map Prod.fst → x = k ∨ x ∈ m.map Prod.fst := by
  intro m k v x h
  rcases List.mem_map.mp h with ⟨kv, hkv, rfl⟩
  rcases mem_pyDictInsert m k v kv hkv with rfl | h'
  · exact Or.inl rfl
  · exact Or.inr (List.mem_map_of_mem Prod.fst h')

/-- The keys of a modelled Python dict are distinct. -/
def keysND {α : Type} (m : List (String × α)) : Prop := (m.map Prod.fst).Nodup

lemma keysND_pyDictInsert {α : Type} :
    ∀ (m : List (String × α)) (k : String) (v : α), keysND m → keysND (pyDictInsert m k v) := by
  intro m
  induction m with
  | nil =>
    intro k v _
    simp [pyDictInsert, keysND]
  | cons e rest ih =>
    intro k v h
    rcases e with ⟨k0, v0⟩
    rcases List.nodup_cons.mp h with ⟨hnotin, hnd⟩
    rw [pyDictInsert_cons]
    by_cases h0 : k0 = k
    · subst h0
      rw [if_pos rfl]
      exact List.nodup_cons.mpr ⟨hnotin, hnd⟩
    · rw [if_neg h0]
      apply List.nodup_cons.mpr
      refine ⟨?_, ih k v hnd⟩
      intro hmem
      rcases keys_pyDictInsert_mem rest k v k0 hmem with rfl | h'
      · exact h0 rfl
      · exact hnotin h'

lemma keysND_lookupD_none {α : Type} (m : List (String × α)) (k : String)
    (h : k ∉ m.map Prod.fst) : lookupD m k = none := by
  induction m with
  | nil => rfl
  | cons e rest ih =>
    simp only [List.map_cons, List.mem_cons] at h
    push_neg at h
    rcases e with ⟨k0, v0⟩
    rw [lookupD_cons, if_neg (fun hc : k0 = k => h.1 hc.symm)]
    exact ih h.2

/-- Number of entries of the dict model carrying a given key. -/
def keyCount {α : Type} (m : List (String × α)) (k : String) : Nat :=
  (m.filter (fun kv => decide (kv.1 = k))).length

lemma keyCount_zero_of_not_mem {α : Type} (m : List (String × α)) (k : String)
    (h : k ∉ m.map Prod.fst) : keyCount m k = 0 := by
  induction m with
  | nil => rfl
  | cons e rest ih =>
    simp only [List.map_cons, List.mem_cons] at h
    push_neg at h
    have hne : ¬ e.1 = k := fun hc => h.1 hc.symm
    have hfil : List.filter (fun kv => decide (kv.1 = k)) (e :: rest) =
        List.filter (fun kv => decide (kv.1 = k)) rest := by
      simp [List.filter_cons, hne]
    unfold keyCount
    rw [hfil]
    exact ih h.2

lemma keyCount_eq {α : Type} (m : List (String × α)) (k : String) (hnd : keysND m) :
    keyCount m k = if (lookupD m k).isSome then 1 else 0 := by
  induction m with
  | nil => rfl
  | cons e rest ih =>
    have hnd' : keysND rest := (List.nodup_cons.mp hnd).2
    rcases e with ⟨k0, v0⟩
    by_cases hek : k0 = k
    · have hknotin : k ∉ rest.map Prod.fst := by
        rw [← hek]
        exact (List.nodup_cons.mp hnd).1
      have hfil : List.filter (fun kv => decide (kv.1 = k)) ((k0, v0) :: rest) =
          (k0, v0) :: List.filter (fun kv => decide (kv.1 = k)) rest := by
        simp [List.filter_cons, hek]
      have hz : keyCount rest k = 0 := keyCount_zero_of_not_mem rest k hknotin
      have hlk : lookupD ((k0, v0) :: rest) k = some v0 := by
        rw [lookupD_cons, if_pos hek]
      unfold keyCount
      rw [hfil, hlk]
      unfold keyCount at hz
      simp [hz]
    · have hfil : List.filter (fun kv => decide (kv.1 = k)) ((k0, v0) :: rest) =
          List.filter (fun kv => decide (kv.1 = k)) rest := by
        simp [List.filter_cons, hek]
      have hlk : lookupD ((k0, v0) :: rest) k = lookupD rest k := by
        rw [lookupD_cons, if_neg hek]
      unfold keyCount
      rw [hfil, hlk]
      exact ih hnd'

lemma lookupD_pyDictUpdate {α : Type} :
    ∀ (other m : List (String × α)), keysND other → ∀ q,
      lookupD (pyDictUpdate m other) q =
        match lookupD other q with
        | some v => some v
        | none => lookupD m q := by
  intro other
  induction other with
  | nil => intro m _ q; rfl
  | cons e rest ih =>
    intro m hnd q
    have hnd' : keysND rest := (List.nodup_cons.mp hnd).2
    rcases e with ⟨ek, ev⟩
    have hstep : pyDictUpdate m ((ek, ev) :: rest) =
        pyDictUpdate (pyDictInsert m ek ev) rest := rfl
    rw [hstep, ih (pyDictInsert m ek ev) hnd' q]
    by_cases hq : q = ek
    · subst hq
      have hnone : lookupD rest q = none := by
        apply keysND_lookupD_none
        exact (List.nodup_cons.mp hnd).1
      have hhead : lookupD ((q, ev) :: rest) q = some ev := by
        rw [lookupD_cons, if_pos rfl]
      rw [hnone, hhead]
      rw [lookupD_pyDictInsert, if_pos rfl]
    · have hhead : lookupD ((ek, ev) :: rest) q = lookupD rest q := by
        rw [lookupD_cons, if_neg (fun hc : ek = q => hq hc.symm)]
      rw [hhead]
      cases h : lookupD rest q with
      | some w => rfl
      | none =>
        rw [lookupD_pyDictInsert, if_neg hq]

lemma mem_pyDictUpdate {α : Type} :
    ∀ (other m : List (String × α)) (kv : String × α),
      kv ∈ pyDictUpdate m other → kv ∈ m ∨ kv ∈ other := by
  intro other
  induction other with
  | nil => intro m kv h; exact Or.inl h
  | cons e rest ih =>
    intro m kv h
    rcases ih (pyDictInsert m e.1 e.2) kv h with h' | h'
    · rcases mem_pyDictInsert m e.1 e.2 kv h' with h'' | h''
      · right
        rw [h'']
        exact List.mem_cons_self _ _
      · exact Or.inl h''
    · exact Or.inr (List.mem_cons_of_mem _ h')

lemma keysND_pyDictUpdate {α : Type} :
    ∀ (other m : List (String × α)), keysND m → keysND (pyDictUpdate m other) := by
  intro other
  induction other with
  | nil => intro m h; exact h
  | cons e rest ih =>
    intro m h
    exact ih (pyDictInsert m e.1 e.2) (keysND_pyDictInsert m e.1 e.2 h)

/-! ## Package-id injectivity and disjointness -/

lemma id_tail_inj (ver : List Nat) {t1 t2 : String}
    (h : "Microsoft.VC." ++ (renderVersion ver ++ t1) =
      "Microsoft.VC." ++ (renderVersion ver ++ t2)) : t1 = t2 :=
  strAppend_cancel_left (renderVersion ver) (strAppend_cancel_left "Microsoft.VC." h)

lemma crt_lib_id_inj (ver : List Nat) (a a' : Architecture) (v v' : Variant)
    (h : crt_lib_id ver a.to_crt_package_id_str (variantStrOf v) =
      crt_lib_id ver a'.to_crt_package_id_str (variantStrOf v')) : a = a' ∧ v = v' := by
  have ht := id_tail_inj ver h
  revert ht
  cases a <;> cases a' <;> cases v <;> cases v' <;> decide

lemma crt_spectre_id_inj (ver : List Nat) (a a' : Architecture) (v v' : Variant)
    (h : crt_spectre_lib_id ver a.to_crt_package_id_str (variantStrOf v) =
      crt_spectre_lib_id ver a'.to_crt_package_id_str (variantStrOf v')) : a = a' ∧ v = v' := by
  have ht := id_tail_inj ver h
  revert ht
  cases a <;> cases a' <;> cases v <;> cases v' <;> decide

lemma crt_base_ne_spectre (ver : List Nat) (a a' : Architecture) (v v' : Variant) :
    crt_lib_id ver a.to_crt_package_id_str (variantStrOf v) ≠
      crt_spectre_lib_id ver a'.to_crt_package_id_str (variantStrOf v') := by
  intro h
  have ht := id_tail_inj ver h
  revert ht
  cases a <;> cases a' <;> cases v <;> cases v' <;> decide

lemma crt_headers_ne_spectre (ver : List Nat) (a : Architecture) (v : Variant) :
    crt_headers_id ver ≠ crt_spectre_lib_id ver a.to_crt_package_id_str (variantStrOf v) := by
  intro h
  have ht := id_tail_inj ver h
  revert ht
  cases a <;> cases v <;> decide

lemma atl_spectre_id_inj (ver : List Nat) (a a' : Architecture)
    (h : atl_spectre_lib_id ver a.to_atl_package_id_str =
      atl_spectre_lib_id ver a'.to_atl_package_id_str) : a = a' := by
  have ht := id_tail_inj ver h
  revert ht
  cases a <;> cases a' <;> decide

lemma atl_base_ne_spectre (ver : List Nat) (a a' : Architecture) :
    atl_lib_id ver a.to_atl_package_id_str ≠
      atl_spectre_lib_id ver a'.to_atl_package_id_str := by
  intro h
  have ht := id_tail_inj ver h
  revert ht
  cases a <;> cases a' <;> decide

lemma atl_headers_ne_spectre (ver : List Nat) (a : Architecture) :
    atl_headers_id ver ≠ atl_spectre_lib_id ver a.to_atl_package_id_str := by
  intro h
  have ht := id_tail_inj ver h
  revert ht
  cases a <;> decide

/-! ## The spectre flag of a grabbed payload -/

lemma from_manifest_item_flag (item : ManifestItem) (kind : PayloadType) (ver : List Nat)
    (sp : Bool) (p : CRTPayload)
    (h : CRTPayload.from_manifest_item item kind ver sp = .ok p) :
    p.spectre_hardened = sp := by
  revert h
  unfold CRTPayload.from_manifest_item
  cases detect_variant_from_id item.id kind with
  | error e => intro h; cases h
  | ok variant =>
    cases detect_arch_from_id item.id kind with
    | error e => intro h; cases h
    | ok arch =>
      cases item.payloads with
      | none => intro h; cases h
      | some l =>
        cases l with
        | nil => intro h; cases h
        | cons p0 rest =>
          intro h
          injection h with h'
          subst h'
          rfl

lemma grab_flag (pkgs : PyxwinPackages) (item_id : String) (kind : PayloadType)
    (ver : List Nat) (sp : Bool) (p : CRTPayload)
    (h : grab_payload_from_pyxwin_packages pkgs item_id kind ver sp = .ok p) :
    p.spectre_hardened = sp := by
  revert h
  unfold grab_payload_from_pyxwin_packages
  cases lookupPkg pkgs item_id with
  | none => intro h; cases h
  | some l =>
    cases l with
    | nil => intro h; cases h
    | cons item rest =>
      intro h
      exact from_manifest_item_flag item kind ver sp p h

/-! ## The last request carrying a given id -/

/-- The `Except`-to-`Option` view used to state lookup characterisations. -/
def okValue {α : Type} : Except PyErr α → Option α
  | .ok a => some a
  | .error _ => none

/-- The last request in a list carrying a given package id — the one whose
grabbed payload survives the repeated dict insertions. -/
def findLastReq : List Req → String → Option (PayloadType × Bool)
  | [], _ => none
  | (item_id, kind, sp) :: rest, k =>
    match findLastReq rest k with
    | some r => some r
    | none => if item_id = k then some (kind, sp) else none

lemma findLastReq_cons (item_id : String) (kind : PayloadType) (sp : Bool)
    (rest : List Req) (k : String) :
    findLastReq ((item_id, kind, sp) :: rest) k =
      match findLastReq rest k with
      | some r => some r
      | none => if item_id = k then some (kind, sp) else none := rfl

lemma findLastReq_eq_none : ∀ (rs : List Req) (k : String),
    (∀ kind sp, (k, kind, sp) ∉ rs) → findLastReq rs k = none := by
  intro rs
  induction rs with
  | nil => intro k _; rfl
  | cons r rest ih =>
    rcases r with ⟨id0, kind0, sp0⟩
    intro k hnot
    have hrest : findLastReq rest k = none := by
      apply ih
      intro kind sp hmem
      exact hnot kind sp (List.mem_cons_of_mem _ hmem)
    have hne : ¬ id0 = k := by
      intro he
      subst he
      exact hnot kind0 sp0 (List.mem_cons_self _ _)
    rw [findLastReq_cons, hrest]
    show (if id0 = k then some (kind0, sp0) else none) = none
    rw [if_neg hne]

lemma findLastReq_mem : ∀ (rs : List Req) (k : String) (kind : PayloadType) (sp : Bool),
    findLastReq rs k = some (kind, sp) → (k, kind, sp) ∈ rs := by
  intro rs
  induction rs with
  | nil => intro k kind sp h; cases h
  | cons r rest ih =>
    rcases r with ⟨id0, kind0, sp0⟩
    intro k kind sp h
    rw [findLastReq_cons] at h
    cases hf : findLastReq rest k with
    | some r0 =>
      rw [hf] at h
      have hr0 : r0 = (kind, sp) := by
        injection h
      subst hr0
      exact List.mem_cons_of_mem _ (ih k kind sp hf)
    | none =>
      rw [hf] at h
      by_cases hid : id0 = k
      · rw [if_pos hid] at h
        subst hid
        injection h with h'
        injection h' with h1 h2
        subst h1
        subst h2
        exact List.mem_cons_self _ _
      · rw [if_neg hid] at h
        cases h

lemma findLastReq_eq_of_mem : ∀ (rs : List Req) (k : String) (kind : PayloadType) (sp : Bool),
    (k, kind, sp) ∈ rs →
    (∀ kind' sp', (k, kind', sp') ∈ rs → kind' = kind ∧ sp' = sp) →
    findLastReq rs k = some (kind, sp) := by
  intro rs
  induction rs with
  | nil => intro k kind sp hmem _; cases hmem
  | cons r rest ih =>
    rcases r with ⟨id0, kind0, sp0⟩
    intro k kind sp hmem hdet
    by_cases hrestmem : ∃ kind' sp', (k, kind', sp') ∈ rest
    · rcases hrestmem with ⟨kind', sp', hmem'⟩
      have hdet' : ∀ kind'' sp'', (k, kind'', sp'') ∈ rest → kind'' = kind ∧ sp'' = sp := by
        intro kind'' sp'' hm
        exact hdet kind'' sp'' (List.mem_cons_of_mem _ hm)
      rcases hdet' kind' sp' hmem' with ⟨hk, hs⟩
      subst hk
      subst hs
      have hrec : findLastReq rest k = some (kind', sp') := ih k kind' sp' hmem' hdet'
      rw [findLastReq_cons, hrec]
    · push_neg at hrestmem
      have hrest : findLastReq rest k = none := by
        apply findLastReq_eq_none
        intro kind' sp' hm
        exact hrestmem kind' sp' hm
      have hhead : (k, kind, sp) = (id0, kind0, sp0) := by
        rcases List.mem_cons.mp hmem with h | h
        · exact h
        · exact absurd h (hrestmem kind sp)
      injection hhead with h1 h2
      injection h2 with h2a h2b
      subst h1
      subst h2a
      subst h2b
      rw [findLastReq_cons, hrest]
      show (if k = k then some (kind, sp) else none) = some (kind, sp)
      rw [if_pos rfl]

lemma findLastReq_isSome_of_mem (rs : List Req) (k : String) (kind : PayloadType) (sp : Bool)
    (hmem : (k, kind, sp) ∈ rs) : findLastReq rs k ≠ none := by
  intro hnone
  induction rs with
  | nil => cases hmem
  | cons r rest ih =>
    rcases r with ⟨id0, kind0, sp0⟩
    rw [findLastReq_cons] at hnone
    cases hf : findLastReq rest k with
    | some r0 =>
      rw [hf] at hnone
      cases hnone
    | none =>
      rw [hf] at hnone
      rcases List.mem_cons.mp hmem with heq | hmem'
      · injection heq with h1 h2
        rw [if_pos h1.symm] at hnone
        cases hnone
      · exact ih hmem' hf

/-! ## The request-evaluation skeleton -/

lemma runReqs_cons (pkgs : PyxwinPackages) (ver : List Nat) (item_id : String)
    (kind : PayloadType) (sp : Bool) (rest : List Req) (acc : List (String × CRTPayload)) :
    runReqs pkgs ver ((item_id, kind, sp) :: rest) acc =
      match grab_payload_from_pyxwin_packages pkgs item_id kind ver sp with
      | .error e => .error e
      | .ok p => runReqs pkgs ver rest (pyDictInsert acc item_id p) := rfl

lemma runReqs_grab_ok (pkgs : PyxwinPackages) (ver : List Nat) :
    ∀ (rs : List Req) (acc m : List (String × CRTPayload)),
      runReqs pkgs ver rs acc = .ok m →
      ∀ r ∈ rs, ∃ p, grab_payload_from_pyxwin_packages pkgs r.1 r.2.1 ver r.2.2 = .ok p := by
  intro rs
  induction rs with
  | nil => intro acc m _ r hr; cases hr
  | cons r0 rest ih =>
    rcases r0 with ⟨id0, kind0, sp0⟩
    intro acc m h r hr
    rw [runReqs_cons] at h
    cases hg : grab_payload_from_pyxwin_packages pkgs id0 kind0 ver sp0 with
    | error e => rw [hg] at h; cases h
    | ok p =>
      rw [hg] at h
      rcases List.mem_cons.mp hr with heq | hr'
      · subst heq
        exact ⟨p, hg⟩
      · exact ih _ m h r hr'

lemma runReqs_ok_of_grabs (pkgs : PyxwinPackages) (ver : List Nat) :
    ∀ (rs : List Req) (acc : List (String × CRTPayload)),
      (∀ r ∈ rs, ∃ p, grab_payload_from_pyxwin_packages pkgs r.1 r.2.1 ver r.2.2 = .ok p) →
      ∃ m, runReqs pkgs ver rs acc = .ok m := by
  intro rs
  induction rs with
  | nil => intro acc _; exact ⟨acc, rfl⟩
  | cons r0 rest ih =>
    rcases r0 with ⟨id0, kind0, sp0⟩
    intro acc hall
    rcases hall (id0, kind0, sp0) (List.mem_cons_self _ _) with ⟨p, hg⟩
    rcases ih (pyDictInsert acc id0 p) (fun r hr => hall r (List.mem_cons_of_mem _ hr)) with
      ⟨m, hm⟩
    refine ⟨m, ?_⟩
    rw [runReqs_cons, hg]
    exact hm

lemma runReqs_lookup (pkgs : PyxwinPackages) (ver : List Nat) :
    ∀ (rs : List Req) (acc m : List (String × CRTPayload)),
      runReqs pkgs ver rs acc = .ok m → ∀ k,
      lookupD m k =
        match findLastReq rs k with
        | some (kind, sp) => okValue (grab_payload_from_pyxwin_packages pkgs k kind ver sp)
        | none => lookupD acc k := by
  intro rs
  induction rs with
  | nil =>
    intro acc m h k
    injection h with h'
    subst h'
    rfl
  | cons r0 rest ih =>
    rcases r0 with ⟨id0, kind0, sp0⟩
    intro acc m h k
    rw [runReqs_cons] at h
    cases hg : grab_payload_from_pyxwin_packages pkgs id0 kind0 ver sp0 with
    | error e => rw [hg] at h; cases h
    | ok p =>
      rw [hg] at h
      have hrec := ih (pyDictInsert acc id0 p) m h k
      rw [hrec]
      cases hf : findLastReq rest k with
      | some r =>
        rcases r with ⟨kind1, sp1⟩
        rw [findLastReq_cons, hf]
      | none =>
        rw [findLastReq_cons, hf]
        show lookupD (pyDictInsert acc id0 p) k =
          (match (if id0 = k then some (kind0, sp0) else none) with
            | some (kind, sp) =>
              okValue (grab_payload_from_pyxwin_packages pkgs k kind ver sp)
            | none => lookupD acc k)
        by_cases hk : id0 = k
        · subst hk
          rw [lookupD_pyDictInsert, if_pos rfl]
          show some p =
            (match (if id0 = id0 then some (kind0, sp0) else none) with
              | some (kind, sp) =>
                okValue (grab_payload_from_pyxwin_packages pkgs id0 kind ver sp)
              | none => lookupD acc id0)
          rw [if_pos rfl]
          show some p = okValue (grab_payload_from_pyxwin_packages pkgs id0 kind0 ver sp0)
          rw [hg]
          rfl
        · rw [lookupD_pyDictInsert, if_neg (fun hc : k = id0 => hk hc.symm), if_neg hk]

lemma runReqs_mem (pkgs : PyxwinPackages) (ver : List Nat) :
    ∀ (rs : List Req) (acc m : List (String × CRTPayload)),
      runReqs pkgs ver rs acc = .ok m →
      ∀ kv ∈ m, kv ∈ acc ∨ ∃ kind sp, (kv.1, kind, sp) ∈ rs ∧
        grab_payload_from_pyxwin_packages pkgs kv.1 kind ver sp = .ok kv.2 := by
  intro rs
  induction rs with
  | nil =>
    intro acc m h kv hkv
    injection h with h'
    subst h'
    exact Or.inl hkv
  | cons r0 rest ih =>
    rcases r0 with ⟨id0, kind0, sp0⟩
    intro acc m h kv hkv
    rw [runReqs_cons] at h
    cases hg : grab_payload_from_pyxwin_packages pkgs id0 kind0 ver sp0 with
    | error e => rw [hg] at h; cases h
    | ok p =>
      rw [hg] at h
      rcases ih (pyDictInsert acc id0 p) m h kv hkv with hacc | ⟨kind, sp, hmem, hgr⟩
      · rcases mem_pyDictInsert acc id0 p kv hacc with heq | hacc'
        · subst heq
          exact Or.inr ⟨kind0, sp0, List.mem_cons_self _ _, hg⟩
        · exact Or.inl hacc'
      · exact Or.inr ⟨kind, sp, List.mem_cons_of_mem _ hmem, hgr⟩

lemma runReqs_keysND (pkgs : PyxwinPackages) (ver : List Nat) :
    ∀ (rs : List Req) (acc m : List (String × CRTPayload)),
      keysND acc → runReqs pkgs ver rs acc = .ok m → keysND m := by
  intro rs
  induction rs with
  | nil =>
    intro acc m hnd h
    injection h with h'
    subst h'
    exact hnd
  | cons r0 rest ih =>
    rcases r0 with ⟨id0, kind0, sp0⟩
    intro acc m hnd h
    rw [runReqs_cons] at h
    cases hg : grab_payload_from_pyxwin_packages pkgs id0 kind0 ver sp0 with
    | error e => rw [hg] at h; cases h
    | ok p =>
      rw [hg] at h
      exact ih (pyDictInsert acc id0 p) m (keysND_pyDictInsert acc id0 p hnd) h

/-! ## The request lists of the CRT and ATL selectors -/

lemma mem_listProd {α β : Type} (xs : List α) (ys : List β) (a : α) (b : β) :
    (a, b) ∈ listProd xs ys ↔ a ∈ xs ∧ b ∈ ys := by
  constructor
  · intro h
    rcases List.mem_flatMap.mp h with ⟨x, hx, hmem⟩
    rcases List.mem_map.mp hmem with ⟨y, hy, heq⟩
    injection heq with h1 h2
    subst h1
    subst h2
    exact ⟨hx, hy⟩
  · rintro ⟨ha, hb⟩
    exact List.mem_flatMap.mpr ⟨a, ha, List.mem_map.mpr ⟨b, hb, rfl⟩⟩

lemma mem_crtPairReqs (isp : Bool) (ver : List Nat) (a : Architecture) (v : Variant)
    (r : Req) :
    r ∈ crtPairReqs isp ver (a, v) ↔
      r = (crt_lib_id ver a.to_crt_package_id_str (variantStrOf v),
        PayloadType.CRT_LIBS, false) ∨
      (isp = true ∧ v ≠ Variant.STORE ∧
        r = (crt_spectre_lib_id ver a.to_crt_package_id_str (variantStrOf v),
          PayloadType.CRT_LIBS, true)) := by
  unfold crtPairReqs
  by_cases hst : v = Variant.STORE
  · subst hst
    cases isp <;> simp [List.mem_cons]
  · cases isp <;> simp [List.mem_cons, hst]

lemma mem_crtReqs (cfg : ManifestOptions) (ver : List Nat) (r : Req) :
    r ∈ crtReqs cfg ver ↔
      ∃ a ∈ cfg.arch, ∃ v ∈ expandVariants cfg.variant,
        r ∈ crtPairReqs cfg.include_spectre ver (a, v) := by
  unfold crtReqs
  constructor
  · intro h
    rcases List.mem_flatMap.mp h with ⟨av, hav, hr⟩
    rcases av with ⟨a, v⟩
    rcases (mem_listProd _ _ a v).mp hav with ⟨ha, hv⟩
    exact ⟨a, ha, v, hv, hr⟩
  · rintro ⟨a, ha, v, hv, hr⟩
    exact List.mem_flatMap.mpr ⟨(a, v), (mem_listProd _ _ a v).mpr ⟨ha, hv⟩, hr⟩

lemma mem_atlArchReqs (isp : Bool) (ver : List Nat) (a : Architecture) (r : Req) :
    r ∈ atlArchReqs isp ver a ↔
      r = (atl_lib_id ver a.to_atl_package_id_str, PayloadType.ATL_LIBS, false) ∨
      (isp = true ∧
        r = (atl_spectre_lib_id ver a.to_atl_package_id_str, PayloadType.ATL_LIBS, true)) := by
  unfold atlArchReqs
  cases isp <;> simp [List.mem_cons]

lemma mem_atlReqs (cfg : ManifestOptions) (ver : List Nat) (r : Req) :
    r ∈ atlReqs cfg ver ↔ ∃ a ∈ cfg.arch, r ∈ atlArchReqs cfg.include_spectre ver a := by
  unfold atlReqs
  constructor
  · intro h
    rcases List.mem_flatMap.mp h with ⟨a, ha, hr⟩
    exact ⟨a, ha, hr⟩
  · rintro ⟨a, ha, hr⟩
    exact List.mem_flatMap.mpr ⟨a, ha, hr⟩

/-- Every CRT-selector request is a `CRT_LIBS` request for the base id of
one of the configured `(arch, variant)` pairs (with the spectre flag off)
or, when spectre hardening is on and the variant is not Store, for its
spectre id (with the flag on). -/
lemma crt_req_shape (cfg : ManifestOptions) (ver : List Nat) (k : String)
    (kind : PayloadType) (sp : Bool) (h : (k, kind, sp) ∈ crtReqs cfg ver) :
    kind = PayloadType.CRT_LIBS ∧
      ∃ a ∈ cfg.arch, ∃ v ∈ expandVariants cfg.variant,
        (sp = false ∧ k = crt_lib_id ver a.to_crt_package_id_str (variantStrOf v)) ∨
        (sp = true ∧ cfg.include_spectre = true ∧ v ≠ Variant.STORE ∧
          k = crt_spectre_lib_id ver a.to_crt_package_id_str (variantStrOf v)) := by
  rcases (mem_crtReqs cfg ver _).mp h with ⟨a, ha, v, hv, hr⟩
  rcases (mem_crtPairReqs _ _ a v _).mp hr with heq | ⟨hisp, hst, heq⟩
  · injection heq with h1 h2
    injection h2 with h2a h2b
    exact ⟨h2a, a, ha, v, hv, Or.inl ⟨h2b, h1⟩⟩
  · injection heq with h1 h2
    injection h2 with h2a h2b
    exact ⟨h2a, a, ha, v, hv, Or.inr ⟨h2b, hisp, hst, h1⟩⟩

/-- Every ATL-selector request is an `ATL_LIBS` request for the base id of
a configured architecture (flag off) or, with spectre hardening on, for
its spectre id (flag on). -/
lemma atl_req_shape (cfg : ManifestOptions) (ver : List Nat) (k : String)
    (kind : PayloadType) (sp : Bool) (h : (k, kind, sp) ∈ atlReqs cfg ver) :
    kind = PayloadType.ATL_LIBS ∧
      ∃ a ∈ cfg.arch,
        (sp = false ∧ k = atl_lib_id ver a.to_atl_package_id_str) ∨
        (sp = true ∧ cfg.include_spectre = true ∧
          k = atl_spectre_lib_id ver a.to_atl_package_id_str) := by
  rcases (mem_atlReqs cfg ver _).mp h with ⟨a, ha, hr⟩
  rcases (mem_atlArchReqs _ _ a _).mp hr with heq | ⟨hisp, heq⟩
  · injection heq with h1 h2
    injection h2 with h2a h2b
    exact ⟨h2a, a, ha, Or.inl ⟨h2b, h1⟩⟩
  · injection heq with h1 h2
    injection h2 with h2a h2b
    exact ⟨h2a, a, ha, Or.inr ⟨h2b, hisp, h1⟩⟩

/-- A package id determines the kind and spectre flag of any CRT-selector
request carrying it, across any two configurations. -/
lemma crt_req_det (cfg cfg' : ManifestOptions) (ver : List Nat) (k : String)
    (kind kind' : PayloadType) (sp sp' : Bool)
    (h : (k, kind, sp) ∈ crtReqs cfg ver) (h' : (k, kind', sp') ∈ crtReqs cfg' ver) :
    kind' = kind ∧ sp' = sp := by
  rcases crt_req_shape cfg ver k kind sp h with ⟨hk1, a, _, v, _, hc1⟩
  rcases crt_req_shape cfg' ver k kind' sp' h' with ⟨hk2, a', _, v', _, hc2⟩
  refine ⟨hk2.trans hk1.symm, ?_⟩
  rcases hc1 with ⟨hsp1, hid1⟩ | ⟨hsp1, _, _, hid1⟩ <;>
    rcases hc2 with ⟨hsp2, hid2⟩ | ⟨hsp2, _, _, hid2⟩
  · exact hsp2.trans hsp1.symm
  · exact absurd (hid1.symm.trans hid2) (crt_base_ne_spectre ver a a' v v')
  · exact absurd (hid2.symm.trans hid1) (crt_base_ne_spectre ver a' a v' v)
  · exact hsp2.trans hsp1.symm

/-- A package id determines the kind and spectre flag of any ATL-selector
request carrying it, across any two configurations. -/
lemma atl_req_det (cfg cfg' : ManifestOptions) (ver : List Nat) (k : String)
    (kind kind' : PayloadType) (sp sp' : Bool)
    (h : (k, kind, sp) ∈ atlReqs cfg ver) (h' : (k, kind', sp') ∈ atlReqs cfg' ver) :
    kind' = kind ∧ sp' = sp := by
  rcases atl_req_shape cfg ver k kind sp h with ⟨hk1, a, _, hc1⟩
  rcases atl_req_shape cfg' ver k kind' sp' h' with ⟨hk2, a', _, hc2⟩
  refine ⟨hk2.trans hk1.symm, ?_⟩
  rcases hc1 with ⟨hsp1, hid1⟩ | ⟨hsp1, _, hid1⟩ <;>
    rcases hc2 with ⟨hsp2, hid2⟩ | ⟨hsp2, _, hid2⟩
  · exact hsp2.trans hsp1.symm
  · exact absurd (hid1.symm.trans hid2) (atl_base_ne_spectre ver a a')
  · exact absurd (hid2.symm.trans hid1) (atl_base_ne_spectre ver a' a)
  · exact hsp2.trans hsp1.symm

/-- A package id appearing in the CRT request list determines the
`(arch, variant)` pair it was generated for. -/
lemma crt_id_pair_det (ver : List Nat) {a a' : Architecture} {v v' : Variant} {k : String}
    (h : k = crt_lib_id ver a.to_crt_package_id_str (variantStrOf v) ∨
      k = crt_spectre_lib_id ver a.to_crt_package_id_str (variantStrOf v))
    (h' : k = crt_lib_id ver a'.to_crt_package_id_str (variantStrOf v') ∨
      k = crt_spectre_lib_id ver a'.to_crt_package_id_str (variantStrOf v')) :
    a = a' ∧ v = v' := by
  rcases h with h | h <;> rcases h' with h' | h'
  · exact crt_lib_id_inj ver a a' v v' (h.symm.trans h')
  · exact absurd (h.symm.trans h') (crt_base_ne_spectre ver a a' v v')
  · exact absurd (h'.symm.trans h) (crt_base_ne_spectre ver a' a v' v)
  · exact crt_spectre_id_inj ver a a' v v' (h.symm.trans h')

lemma findLastReq_crt_spectre (cfg : ManifestOptions) (ver : List Nat)
    (a : Architecture) (v : Variant) (ha : a ∈ cfg.arch)
    (hv : v ∈ expandVariants cfg.variant) (hst : v ≠ Variant.STORE)
    (hisp : cfg.include_spectre = true) :
    findLastReq (crtReqs cfg ver)
        (crt_spectre_lib_id ver a.to_crt_package_id_str (variantStrOf v)) =
      some (PayloadType.CRT_LIBS, true) := by
  have hmem : (crt_spectre_lib_id ver a.to_crt_package_id_str (variantStrOf v),
      PayloadType.CRT_LIBS, true) ∈ crtReqs cfg ver := by
    apply (mem_crtReqs cfg ver _).mpr
    exact ⟨a, ha, v, hv, (mem_crtPairReqs _ _ a v _).mpr (Or.inr ⟨hisp, hst, rfl⟩)⟩
  apply findLastReq_eq_of_mem _ _ _ _ hmem
  intro kind' sp' hmem'
  exact crt_req_det cfg cfg ver _ _ _ _ _ hmem hmem'

lemma findLastReq_crt_store_spectre (cfg : ManifestOptions) (ver : List Nat)
    (a : Architecture) :
    findLastReq (crtReqs cfg ver)
        (crt_spectre_lib_id ver a.to_crt_package_id_str (variantStrOf Variant.STORE)) =
      none := by
  apply findLastReq_eq_none
  intro kind sp hmem
  rcases crt_req_shape cfg ver _ kind sp hmem with ⟨_, a', _, v', _, hcase⟩
  rcases hcase with ⟨_, hk⟩ | ⟨_, _, hst, hk⟩
  · exact crt_base_ne_spectre ver a' a v' Variant.STORE hk.symm
  · exact hst ((crt_spectre_id_inj ver a a' Variant.STORE v' hk).2.symm)

lemma findLastReq_atl_spectre (cfg : ManifestOptions) (ver : List Nat)
    (a : Architecture) (ha : a ∈ cfg.arch) (hisp : cfg.include_spectre = true) :
    findLastReq (atlReqs cfg ver) (atl_spectre_lib_id ver a.to_atl_package_id_str) =
      some (PayloadType.ATL_LIBS, true) := by
  have hmem : (atl_spectre_lib_id ver a.to_atl_package_id_str,
      PayloadType.ATL_LIBS, true) ∈ atlReqs cfg ver := by
    apply (mem_atlReqs cfg ver _).mpr
    exact ⟨a, ha, (mem_atlArchReqs _ _ a _).mpr (Or.inr ⟨hisp, rfl⟩)⟩
  apply findLastReq_eq_of_mem _ _ _ _ hmem
  intro kind' sp' hmem'
  exact atl_req_det cfg cfg ver _ _ _ _ _ hmem hmem'

/-! ## C6: spectre gating -/

/-- C6: for either toolchain artifact (`CRT_LIBS` or `ATL_LIBS`), with
`include_spectre=false` the selected payload mapping contains zero
payloads with `spectre_hardened=true`; with `include_spectre=true` the
CRT artifact contains exactly one spectre-hardened payload per configured
`(arch, variant)` pair with `variant ≠ Store` (under that pair's spectre
package id), none under any Store spectre id, and no spectre-hardened
payload under any other key; the ATL artifact likewise contains exactly
one spectre-hardened payload per configured arch and no others. -/
theorem spectre_gating_spec (pkgs : PyxwinPackages) (cfg : ManifestOptions)
    (ver : List Nat) (at_ : PayloadType) (m : List (String × CRTPayload))
    (hat : at_ = PayloadType.CRT_LIBS ∨ at_ = PayloadType.ATL_LIBS)
    (hver : crtVersionFromIndex pkgs cfg = .ok ver)
    (h : get_toolchain_artifact pkgs cfg at_ = .ok m) :
    (cfg.include_spectre = false → ∀ kv ∈ m, kv.2.spectre_hardened = false) ∧
    (cfg.include_spectre = true → at_ = PayloadType.CRT_LIBS →
      (∀ a ∈ cfg.arch, ∀ v ∈ expandVariants cfg.variant, v ≠ Variant.STORE →
        keyCount m (crt_spectre_lib_id ver a.to_crt_package_id_str (variantStrOf v)) = 1 ∧
        ∃ p, lookupD m (crt_spectre_lib_id ver a.to_crt_package_id_str (variantStrOf v)) =
            some p ∧ p.spectre_hardened = true) ∧
      (∀ a : Architecture,
        lookupD m (crt_spectre_lib_id ver a.to_crt_package_id_str
          (variantStrOf Variant.STORE)) = none) ∧
      (∀ kv ∈ m, kv.2.spectre_hardened = true →
        ∃ a ∈ cfg.arch, ∃ v ∈ expandVariants cfg.variant, v ≠ Variant.STORE ∧
          kv.1 = crt_spectre_lib_id ver a.to_crt_package_id_str (variantStrOf v))) ∧
    (cfg.include_spectre = true → at_ = PayloadType.ATL_LIBS →
      (∀ a ∈ cfg.arch,
        keyCount m (atl_spectre_lib_id ver a.to_atl_package_id_str) = 1 ∧
        ∃ p, lookupD m (atl_spectre_lib_id ver a.to_atl_package_id_str) = some p ∧
          p.spectre_hardened = true) ∧
      (∀ kv ∈ m, kv.2.spectre_hardened = true →
        ∃ a ∈ cfg.arch, kv.1 = atl_spectre_lib_id ver a.to_atl_package_id_str)) := by
  rcases hat with rfl | rfl
  · unfold get_toolchain_artifact at h
    rw [hver] at h
    have h1 : (do
        let header ← grab_payload_from_pyxwin_packages pkgs (crt_headers_id ver)
          PayloadType.CRT_HEADERS ver false
        let libs ← get_crt_libs pkgs cfg ver
        pure (pyDictUpdate [(crt_headers_id ver, header)] libs) :
          Except PyErr (List (String × CRTPayload))) = .ok m := h
    cases hh : grab_payload_from_pyxwin_packages pkgs (crt_headers_id ver)
        PayloadType.CRT_HEADERS ver false with
    | error e => rw [hh] at h1; cases h1
    | ok header =>
      rw [hh] at h1
      have h2 : (do
          let libs ← get_crt_libs pkgs cfg ver
          pure (pyDictUpdate [(crt_headers_id ver, header)] libs) :
            Except PyErr (List (String × CRTPayload))) = .ok m := h1
      cases hl : get_crt_libs pkgs cfg ver with
      | error e => rw [hl] at h2; cases h2
      | ok libs =>
        rw [hl] at h2
        have h3 : pyDictUpdate [(crt_headers_id ver, header)] libs = m := by
          injection h2
        subst h3
        have hndlibs : keysND libs :=
          runReqs_keysND pkgs ver (crtReqs cfg ver) [] libs List.nodup_nil hl
        have hndm : keysND (pyDictUpdate [(crt_headers_id ver, header)] libs) :=
          keysND_pyDictUpdate libs [(crt_headers_id ver, header)] (by simp [keysND])
        have hlook := lookupD_pyDictUpdate libs [(crt_headers_id ver, header)] hndlibs
        have hliblook := runReqs_lookup pkgs ver (crtReqs cfg ver) [] libs hl
        have hhflag : header.spectre_hardened = false :=
          grab_flag pkgs (crt_headers_id ver) PayloadType.CRT_HEADERS ver false header hh
        refine ⟨?_, ?_, ?_⟩
        · intro hf kv hkv
          rcases mem_pyDictUpdate libs [(crt_headers_id ver, header)] kv hkv with hhd | hlib
          · have hkveq : kv = (crt_headers_id ver, header) := List.mem_singleton.mp hhd
            rw [hkveq]
            exact hhflag
          · rcases runReqs_mem pkgs ver (crtReqs cfg ver) [] libs hl kv hlib with
              hacc | ⟨kind, sp, hmem, hgr⟩
            · cases hacc
            · have hflag := grab_flag pkgs kv.1 kind ver sp kv.2 hgr
              rcases crt_req_shape cfg ver kv.1 kind sp hmem with ⟨_, a, _, v, _, hcase⟩
              rcases hcase with ⟨hsp, _⟩ | ⟨_, hispec, _, _⟩
              · rw [hflag, hsp]
              · rw [hf] at hispec
                cases hispec
        · intro hisp _
          refine ⟨?_, ?_, ?_⟩
          · intro a ha v hv hst
            have hfl := findLastReq_crt_spectre cfg ver a v ha hv hst hisp
            have hmemreq : (crt_spectre_lib_id ver a.to_crt_package_id_str (variantStrOf v),
                PayloadType.CRT_LIBS, true) ∈ crtReqs cfg ver :=
              findLastReq_mem _ _ _ _ hfl
            rcases runReqs_grab_ok pkgs ver (crtReqs cfg ver) [] libs hl _ hmemreq with ⟨p, hgr⟩
            have hgr' : grab_payload_from_pyxwin_packages pkgs
                (crt_spectre_lib_id ver a.to_crt_package_id_str (variantStrOf v))
                PayloadType.CRT_LIBS ver true = .ok p := hgr
            have hlk : lookupD libs
                (crt_spectre_lib_id ver a.to_crt_package_id_str (variantStrOf v)) = some p := by
              rw [hliblook, hfl]
              show okValue (grab_payload_from_pyxwin_packages pkgs
                (crt_spectre_lib_id ver a.to_crt_package_id_str (variantStrOf v))
                PayloadType.CRT_LIBS ver true) = some p
              rw [hgr']
              rfl
            have hmlk : lookupD (pyDictUpdate [(crt_headers_id ver, header)] libs)
                (crt_spectre_lib_id ver a.to_crt_package_id_str (variantStrOf v)) = some p := by
              rw [hlook, hlk]
            refine ⟨?_, p, hmlk, grab_flag pkgs _ PayloadType.CRT_LIBS ver true p hgr'⟩
            rw [keyCount_eq _ _ hndm, hmlk]
            rfl
          · intro a
            have hfl := findLastReq_crt_store_spectre cfg ver a
            have hlk : lookupD libs (crt_spectre_lib_id ver a.to_crt_package_id_str
                (variantStrOf Variant.STORE)) = none := by
              rw [hliblook, hfl]
              rfl
            rw [hlook, hlk]
            show lookupD [(crt_headers_id ver, header)]
              (crt_spectre_lib_id ver a.to_crt_package_id_str (variantStrOf Variant.STORE)) =
                none
            rw [lookupD_cons, if_neg (crt_headers_ne_spectre ver a Variant.STORE)]
            rfl
          · intro kv hkv hflag
            rcases mem_pyDictUpdate libs [(crt_headers_id ver, header)] kv hkv with hhd | hlib
            · have hkveq : kv = (crt_headers_id ver, header) := List.mem_singleton.mp hhd
              have hflag' : header.spectre_hardened = true := by
                rw [hkveq] at hflag
                exact hflag
              rw [hhflag] at hflag'
              cases hflag'
            · rcases runReqs_mem pkgs ver (crtReqs cfg ver) [] libs hl kv hlib with
                hacc | ⟨kind, sp, hmem, hgr⟩
              · cases hacc
              · have hflag2 : kv.2.spectre_hardened = sp :=
                  grab_flag pkgs kv.1 kind ver sp kv.2 hgr
                have hsp : sp = true := hflag2.symm.trans hflag
                rcases crt_req_shape cfg ver kv.1 kind sp hmem with ⟨_, a, ha, v, hv, hcase⟩
                rcases hcase with ⟨hspf, _⟩ | ⟨_, _, hst, hk⟩
                · rw [hsp] at hspf
                  cases hspf
                · exact ⟨a, ha, v, hv, hst, hk⟩
        · intro _ hc
          cases hc
  · unfold get_toolchain_artifact at h
    rw [hver] at h
    have h1 : (do
        let header ← grab_payload_from_pyxwin_packages pkgs (atl_headers_id ver)
          PayloadType.ATL_HEADERS ver false
        let libs ← get_atl_libs pkgs cfg ver
        pure (pyDictUpdate [(atl_headers_id ver, header)] libs) :
          Except PyErr (List (String × CRTPayload))) = .ok m := h
    cases hh : grab_payload_from_pyxwin_packages pkgs (atl_headers_id ver)
        PayloadType.ATL_HEADERS ver false with
    | error e => rw [hh] at h1; cases h1
    | ok header =>
      rw [hh] at h1
      have h2 : (do
          let libs ← get_atl_libs pkgs cfg ver
          pure (pyDictUpdate [(atl_headers_id ver, header)] libs) :
            Except PyErr (List (String × CRTPayload))) = .ok m := h1
      cases hl : get_atl_libs pkgs cfg ver with
      | error e => rw [hl] at h2; cases h2
      | ok libs =>
        rw [hl] at h2
        have h3 : pyDictUpdate [(atl_headers_id ver, header)] libs = m := by
          injection h2
        subst h3
        have hndlibs : keysND libs :=
          runReqs_keysND pkgs ver (atlReqs cfg ver) [] libs List.nodup_nil hl
        have hndm : keysND (pyDictUpdate [(atl_headers_id ver, header)] libs) :=
          keysND_pyDictUpdate libs [(atl_headers_id ver, header)] (by simp [keysND])
        have hlook := lookupD_pyDictUpdate libs [(atl_headers_id ver, header)] hndlibs
        have hliblook := runReqs_lookup pkgs ver (atlReqs cfg ver) [] libs hl
        have hhflag : header.spectre_hardened = false :=
          grab_flag pkgs (atl_headers_id ver) PayloadType.ATL_HEADERS ver false header hh
        refine ⟨?_, ?_, ?_⟩
        · intro hf kv hkv
          rcases mem_pyDictUpdate libs [(atl_headers_id ver, header)] kv hkv with hhd | hlib
          · have hkveq : kv = (atl_headers_id ver, header) := List.mem_singleton.mp hhd
            rw [hkveq]
            exact hhflag
          · rcases runReqs_mem pkgs ver (atlReqs cfg ver) [] libs hl kv hlib with
              hacc | ⟨kind, sp, hmem, hgr⟩
            · cases hacc
            · have hflag := grab_flag pkgs kv.1 kind ver sp kv.2 hgr
              rcases atl_req_shape cfg ver kv.1 kind sp hmem with ⟨_, a, _, hcase⟩
              rcases hcase with ⟨hsp, _⟩ | ⟨_, hispec, _⟩
              · rw [hflag, hsp]
              · rw [hf] at hispec
                cases hispec
        · intro _ hc
          cases hc
        · intro hisp _
          refine ⟨?_, ?_⟩
          · intro a ha
            have hfl := findLastReq_atl_spectre cfg ver a ha hisp
            have hmemreq : (atl_spectre_lib_id ver a.to_atl_package_id_str,
                PayloadType.ATL_LIBS, true) ∈ atlReqs cfg ver :=
              findLastReq_mem _ _ _ _ hfl
            rcases runReqs_grab_ok pkgs ver (atlReqs cfg ver) [] libs hl _ hmemreq with ⟨p, hgr⟩
            have hgr' : grab_payload_from_pyxwin_packages pkgs
                (atl_spectre_lib_id ver a.to_atl_package_id_str)
                PayloadType.ATL_LIBS ver true = .ok p := hgr
            have hlk : lookupD libs (atl_spectre_lib_id ver a.to_atl_package_id_str) =
                some p := by
              rw [hliblook, hfl]
              show okValue (grab_payload_from_pyxwin_packages pkgs
                (atl_spectre_lib_id ver a.to_atl_package_id_str)
                PayloadType.ATL_LIBS ver true) = some p
              rw [hgr']
              rfl
            have hmlk : lookupD (pyDictUpdate [(atl_headers_id ver, header)] libs)
                (atl_spectre_lib_id ver a.to_atl_package_id_str) = some p := by
              rw [hlook, hlk]
            refine ⟨?_, p, hmlk, grab_flag pkgs _ PayloadType.ATL_LIBS ver true p hgr'⟩
            rw [keyCount_eq _ _ hndm, hmlk]
            rfl
          · intro kv hkv hflag
            rcases mem_pyDictUpdate libs [(atl_headers_id ver, header)] kv hkv with hhd | hlib
            · have hkveq : kv = (atl_headers_id ver, header) := List.mem_singleton.mp hhd
              have hflag' : header.spectre_hardened = true := by
                rw [hkveq] at hflag
                exact hflag
              rw [hhflag] at hflag'
              cases hflag'
            · rcases runReqs_mem pkgs ver (atlReqs cfg ver) [] libs hl kv hlib with
                hacc | ⟨kind, sp, hmem, hgr⟩
              · cases hacc
              · have hflag2 : kv.2.spectre_hardened = sp :=
                  grab_flag pkgs kv.1 kind ver sp kv.2 hgr
                have hsp : sp = true := hflag2.symm.trans hflag
                rcases atl_req_shape cfg ver kv.1 kind sp hmem with ⟨_, a, ha, hcase⟩
                rcases hcase with ⟨hspf, _⟩ | ⟨_, _, hk⟩
                · rw [hsp] at hspf
                  cases hspf
                · exact ⟨a, ha, hk⟩

/-- A payload fixture for the spectre-gating witness. -/
def examplePayload6 : ManifestPayload :=
  { sha256 := "aa", size := 1, url := "https://example.com/p.vsix", file_name := "p.vsix" }

/-- A manifest-item fixture with a single payload under a given id. -/
def exampleItem6 (item_id : String) : ManifestItem :=
  { id := item_id, version := "14.44.17.14", payloads := some [examplePayload6],
    dependencies := none, install_sizes := none }

/-- A package index holding the build-tools entry and the three CRT
packages the spectre-gating witness configuration selects. -/
def examplePkgs6 : PyxwinPackages :=
  [("Microsoft.VisualStudio.Product.BuildTools",
      [{ id := "Microsoft.VisualStudio.Product.BuildTools", version := "1",
         payloads := none,
         dependencies := some ["Microsoft.VisualCpp.CRT.14.44.17.14.x86.x64"],
         install_sizes := none }]),
    ("Microsoft.VC.14.44.17.14.CRT.Headers.base",
      [exampleItem6 "Microsoft.VC.14.44.17.14.CRT.Headers.base"]),
    ("Microsoft.VC.14.44.17.14.CRT.x64.Desktop.base",
      [exampleItem6 "Microsoft.VC.14.44.17.14.CRT.x64.Desktop.base"]),
    ("Microsoft.VC.14.44.17.14.CRT.x64.Desktop.spectre.base",
      [exampleItem6 "Microsoft.VC.14.44.17.14.CRT.x64.Desktop.spectre.base"])]

/-- The spectre-gating witness configuration: one architecture, one
variant, spectre hardening on. -/
def exampleCfg6 : ManifestOptions :=
  { channel_manifest_path := none, manifest_version := 18, channel := Channel.STABLE,
    arch := [Architecture.X86_64], variant := [Variant.DESKTOP], cache_dir := "cache",
    crt_version := none, sdk_version := none, include_atl := false,
    include_spectre := true }

/-- The CRT artifact the witness configuration produces. -/
def exampleArtifact6 : List (String × CRTPayload) :=
  match get_toolchain_artifact examplePkgs6 exampleCfg6 PayloadType.CRT_LIBS with
  | .ok m => m
  | .error _ => []

theorem spectre_gating_spec_witness :
    (exampleCfg6.include_spectre = false →
      ∀ kv ∈ exampleArtifact6, kv.2.spectre_hardened = false) ∧
    (exampleCfg6.include_spectre = true →
      PayloadType.CRT_LIBS = PayloadType.CRT_LIBS →
      (∀ a ∈ exampleCfg6.arch, ∀ v ∈ expandVariants exampleCfg6.variant,
        v ≠ Variant.STORE →
        keyCount exampleArtifact6 (crt_spectre_lib_id [14, 44, 17, 14]
          a.to_crt_package_id_str (variantStrOf v)) = 1 ∧
        ∃ p, lookupD exampleArtifact6 (crt_spectre_lib_id [14, 44, 17, 14]
            a.to_crt_package_id_str (variantStrOf v)) = some p ∧
          p.spectre_hardened = true) ∧
      (∀ a : Architecture,
        lookupD exampleArtifact6 (crt_spectre_lib_id [14, 44, 17, 14]
          a.to_crt_package_id_str (variantStrOf Variant.STORE)) = none) ∧
      (∀ kv ∈ exampleArtifact6, kv.2.spectre_hardened = true →
        ∃ a ∈ exampleCfg6.arch, ∃ v ∈ expandVariants exampleCfg6.variant,
          v ≠ Variant.STORE ∧ kv.1 = crt_spectre_lib_id [14, 44, 17, 14]
            a.to_crt_package_id_str (variantStrOf v))) ∧
    (exampleCfg6.include_spectre = true →
      PayloadType.CRT_LIBS = PayloadType.ATL_LIBS →
      (∀ a ∈ exampleCfg6.arch,
        keyCount exampleArtifact6 (atl_spectre_lib_id [14, 44, 17, 14]
          a.to_atl_package_id_str) = 1 ∧
        ∃ p, lookupD exampleArtifact6 (atl_spectre_lib_id [14, 44, 17, 14]
            a.to_atl_package_id_str) = some p ∧ p.spectre_hardened = true) ∧
      (∀ kv ∈ exampleArtifact6, kv.2.spectre_hardened = true →
        ∃ a ∈ exampleCfg6.arch, kv.1 = atl_spectre_lib_id [14, 44, 17, 14]
          a.to_atl_package_id_str)) :=
  spectre_gating_spec examplePkgs6 exampleCfg6 [14, 44, 17, 14] PayloadType.CRT_LIBS
    exampleArtifact6 (Or.inl rfl) rfl rfl

/-! ## C7: variant expansion -/

/-- C7: running `_get_crt_libs` with `variant=[All]` is literally the same
computation as running it with `variant=[Desktop, OneCore, Store]`
(`[All]` expands to exactly those three variants), and when it succeeds,
its payload mapping agrees pointwise with the Python-dict union of the
three single-variant selections (Desktop updated by OneCore updated by
Store), each of which also succeeds. -/
theorem variant_expansion_spec (pkgs : PyxwinPackages) (cfg : ManifestOptions)
    (ver : List Nat) (hv : cfg.variant = [Variant.ALL]) :
    get_crt_libs pkgs cfg ver =
      get_crt_libs pkgs
        { cfg with variant := [Variant.DESKTOP, Variant.ONECORE, Variant.STORE] } ver ∧
    ∀ m, get_crt_libs pkgs cfg ver = .ok m →
      ∃ mD mO mS,
        get_crt_libs pkgs { cfg with variant := [Variant.DESKTOP] } ver = .ok mD ∧
        get_crt_libs pkgs { cfg with variant := [Variant.ONECORE] } ver = .ok mO ∧
        get_crt_libs pkgs { cfg with variant := [Variant.STORE] } ver = .ok mS ∧
        ∀ k, lookupD m k = lookupD (pyDictUpdate (pyDictUpdate mD mO) mS) k := by
  constructor
  · unfold get_crt_libs crtReqs
    rw [hv]
    rfl
  · intro m h
    have hgr_all := runReqs_grab_ok pkgs ver (crtReqs cfg ver) [] m h
    have hsub : ∀ (V : Variant), V ∈ expandVariants cfg.variant →
        expandVariants [V] = [V] →
        ∀ r ∈ crtReqs { cfg with variant := [V] } ver, r ∈ crtReqs cfg ver := by
      intro V hV hVe r hr
      rcases (mem_crtReqs _ _ _).mp hr with ⟨a, ha, v, hvv, hpair⟩
      have hvv' : v ∈ expandVariants [V] := hvv
      rw [hVe] at hvv'
      have hveq : v = V := List.mem_singleton.mp hvv'
      subst hveq
      exact (mem_crtReqs cfg ver r).mpr ⟨a, ha, v, hV, hpair⟩
    have hmk : ∀ (V : Variant), V ∈ expandVariants cfg.variant → expandVariants [V] = [V] →
        ∃ mV, get_crt_libs pkgs { cfg with variant := [V] } ver = .ok mV := by
      intro V hV hVe
      exact runReqs_ok_of_grabs pkgs ver (crtReqs { cfg with variant := [V] } ver) []
        (fun r hr => hgr_all r (hsub V hV hVe r hr))
    rcases hmk Variant.DESKTOP (by rw [hv]; decide) (by decide) with ⟨mD, hD⟩
    rcases hmk Variant.ONECORE (by rw [hv]; decide) (by decide) with ⟨mO, hO⟩
    rcases hmk Variant.STORE (by rw [hv]; decide) (by decide) with ⟨mS, hS⟩
    refine ⟨mD, mO, mS, hD, hO, hS, ?_⟩
    have hndO : keysND mO :=
      runReqs_keysND pkgs ver (crtReqs { cfg with variant := [Variant.ONECORE] } ver) [] mO
        List.nodup_nil hO
    have hndS : keysND mS :=
      runReqs_keysND pkgs ver (crtReqs { cfg with variant := [Variant.STORE] } ver) [] mS
        List.nodup_nil hS
    have hlm := runReqs_lookup pkgs ver (crtReqs cfg ver) [] m h
    have hlD := runReqs_lookup pkgs ver
      (crtReqs { cfg with variant := [Variant.DESKTOP] } ver) [] mD hD
    have hlO := runReqs_lookup pkgs ver
      (crtReqs { cfg with variant := [Variant.ONECORE] } ver) [] mO hO
    have hlS := runReqs_lookup pkgs ver
      (crtReqs { cfg with variant := [Variant.STORE] } ver) [] mS hS
    intro k
    cases hfAll : findLastReq (crtReqs cfg ver) k with
    | none =>
      have hnoneV : ∀ (V : Variant), expandVariants [V] = [V] →
          V ∈ expandVariants cfg.variant →
          findLastReq (crtReqs { cfg with variant := [V] } ver) k = none := by
        intro V hVe hVm
        cases hfV : findLastReq (crtReqs { cfg with variant := [V] } ver) k with
        | none => rfl
        | some r =>
          rcases r with ⟨kind, sp⟩
          have hmemV := findLastReq_mem _ _ _ _ hfV
          have hmemAll := hsub V hVm hVe _ hmemV
          exact (findLastReq_isSome_of_mem _ k kind sp hmemAll hfAll).elim
      have hfD := hnoneV Variant.DESKTOP (by decide) (by rw [hv]; decide)
      have hfO := hnoneV Variant.ONECORE (by decide) (by rw [hv]; decide)
      have hfS := hnoneV Variant.STORE (by decide) (by rw [hv]; decide)
      have hlkm : lookupD m k = none := by
        rw [hlm k, hfAll]
        rfl
      have hlkD : lookupD mD k = none := by
        rw [hlD k, hfD]
        rfl
      have hlkO : lookupD mO k = none := by
        rw [hlO k, hfO]
        rfl
      have hlkS : lookupD mS k = none := by
        rw [hlS k, hfS]
        rfl
      rw [hlkm, lookupD_pyDictUpdate mS _ hndS k, hlkS,
        lookupD_pyDictUpdate mO mD hndO k, hlkO, hlkD]
    | some r =>
      rcases r with ⟨kind, sp⟩
      have hmem := findLastReq_mem _ _ _ _ hfAll
      rcases hgr_all (k, kind, sp) hmem with ⟨p, hgrp⟩
      have hgrp' : grab_payload_from_pyxwin_packages pkgs k kind ver sp = .ok p := hgrp
      rcases crt_req_shape cfg ver k kind sp hmem with ⟨hkind, a, ha, v, hvmem, hcase⟩
      have hid : k = crt_lib_id ver a.to_crt_package_id_str (variantStrOf v) ∨
          k = crt_spectre_lib_id ver a.to_crt_package_id_str (variantStrOf v) := by
        rcases hcase with ⟨_, h1⟩ | ⟨_, _, _, h1⟩
        · exact Or.inl h1
        · exact Or.inr h1
      have hnone2 : ∀ (V : Variant), expandVariants [V] = [V] → v ≠ V →
          findLastReq (crtReqs { cfg with variant := [V] } ver) k = none := by
        intro V hVe hne
        apply findLastReq_eq_none
        intro kind2 sp2 hmem2
        rcases crt_req_shape { cfg with variant := [V] } ver k kind2 sp2 hmem2 with
          ⟨_, a2, _, v2, hv2, hc2⟩
        have hv2' : v2 ∈ expandVariants [V] := hv2
        rw [hVe] at hv2'
        have hv2e : v2 = V := List.mem_singleton.mp hv2'
        have hid2 : k = crt_lib_id ver a2.to_crt_package_id_str (variantStrOf v2) ∨
            k = crt_spectre_lib_id ver a2.to_crt_package_id_str (variantStrOf v2) := by
          rcases hc2 with ⟨_, h1⟩ | ⟨_, _, _, h1⟩
          · exact Or.inl h1
          · exact Or.inr h1
        have hvv2 := (crt_id_pair_det ver hid hid2).2
        rw [hv2e] at hvv2
        exact hne hvv2
      have hmemV : ∀ (V : Variant), expandVariants [V] = [V] → v = V →
          (k, kind, sp) ∈ crtReqs { cfg with variant := [V] } ver := by
        intro V hVe hveq
        subst hveq
        apply (mem_crtReqs _ _ _).mpr
        have hvV : v ∈ expandVariants ({ cfg with variant := [v] } : ManifestOptions).variant := by
          have : v ∈ expandVariants [v] := by
            rw [hVe]
            exact List.mem_singleton.mpr rfl
          exact this
        refine ⟨a, ha, v, hvV, ?_⟩
        apply (mem_crtPairReqs _ _ a v _).mpr
        rcases hcase with ⟨hsp, hk1⟩ | ⟨hsp, hspec, hst, hk1⟩
        · left
          rw [hkind, hsp, hk1]
        · right
          exact ⟨hspec, hst, by rw [hkind, hsp, hk1]⟩
      have hsomeV : ∀ (V : Variant), expandVariants [V] = [V] → v = V →
          findLastReq (crtReqs { cfg with variant := [V] } ver) k = some (kind, sp) := by
        intro V hVe hveq
        apply findLastReq_eq_of_mem _ _ _ _ (hmemV V hVe hveq)
        intro kind' sp' h'
        exact crt_req_det cfg _ ver k kind kind' sp sp' hmem h'
      have hvmem' : v ∈ Variant.get_all_variants := by
        have hvm2 : v ∈ expandVariants [Variant.ALL] := by
          rw [← hv]
          exact hvmem
        exact hvm2
      simp only [Variant.get_all_variants, List.mem_cons, List.not_mem_nil, or_false]
        at hvmem'
      have hlkm : lookupD m k = some p := by
        rw [hlm k, hfAll]
        show okValue (grab_payload_from_pyxwin_packages pkgs k kind ver sp) = some p
        rw [hgrp']
        rfl
      rcases hvmem' with hveq | hveq | hveq
      · have hfD := hsomeV Variant.DESKTOP (by decide) hveq
        have hfO := hnone2 Variant.ONECORE (by decide) (by rw [hveq]; decide)
        have hfS := hnone2 Variant.STORE (by decide) (by rw [hveq]; decide)
        have hlkD : lookupD mD k = some p := by
          rw [hlD k, hfD]
          show okValue (grab_payload_from_pyxwin_packages pkgs k kind ver sp) = some p
          rw [hgrp']
          rfl
        have hlkO : lookupD mO k = none := by
          rw [hlO k, hfO]
          rfl
        have hlkS : lookupD mS k = none := by
          rw [hlS k, hfS]
          rfl
        rw [hlkm, lookupD_pyDictUpdate mS _ hndS k, hlkS,
          lookupD_pyDictUpdate mO mD hndO k, hlkO, hlkD]
      · have hfO := hsomeV Variant.ONECORE (by decide) hveq
        have hfD := hnone2 Variant.DESKTOP (by decide) (by rw [hveq]; decide)
        have hfS := hnone2 Variant.STORE (by decide) (by rw [hveq]; decide)
        have hlkO : lookupD mO k = some p := by
          rw [hlO k, hfO]
          show okValue (grab_payload_from_pyxwin_packages pkgs k kind ver sp) = some p
          rw [hgrp']
          rfl
        have hlkD : lookupD mD k = none := by
          rw [hlD k, hfD]
          rfl
        have hlkS : lookupD mS k = none := by
          rw [hlS k, hfS]
          rfl
        rw [hlkm, lookupD_pyDictUpdate mS _ hndS k, hlkS,
          lookupD_pyDictUpdate mO mD hndO k, hlkO]
      · have hfS := hsomeV Variant.STORE (by decide) hveq
        have hfD := hnone2 Variant.DESKTOP (by decide) (by rw [hveq]; decide)
        have hfO := hnone2 Variant.ONECORE (by decide) (by rw [hveq]; decide)
        have hlkS : lookupD mS k = some p := by
          rw [hlS k, hfS]
          show okValue (grab_payload_from_pyxwin_packages pkgs k kind ver sp) = some p
          rw [hgrp']
          rfl
        rw [hlkm, lookupD_pyDictUpdate mS _ hndS k, hlkS]

/-- A package index holding the three x86 CRT base packages the
variant-expansion witness configuration selects. -/
def examplePkgs7 : PyxwinPackages :=
  [("Microsoft.VC.14.44.17.14.CRT.x86.Desktop.base",
      [exampleItem6 "Microsoft.VC.14.44.17.14.CRT.x86.Desktop.base"]),
    ("Microsoft.VC.14.44.17.14.CRT.x86.OneCore.Desktop.base",
      [exampleItem6 "Microsoft.VC.14.44.17.14.CRT.x86.OneCore.Desktop.base"]),
    ("Microsoft.VC.14.44.17.14.CRT.x86.Store.base",
      [exampleItem6 "Microsoft.VC.14.44.17.14.CRT.x86.Store.base"])]

/-- The variant-expansion witness configuration: `variant=[All]`. -/
def exampleCfg7 : ManifestOptions :=
  { channel_manifest_path := none, manifest_version := 18, channel := Channel.STABLE,
    arch := [Architecture.X86], variant := [Variant.ALL], cache_dir := "cache",
    crt_version := none, sdk_version := none, include_atl := false,
    include_spectre := false }

theorem variant_expansion_spec_witness :
    get_crt_libs examplePkgs7 exampleCfg7 [14, 44, 17, 14] =
      get_crt_libs examplePkgs7
        { exampleCfg7 with variant := [Variant.DESKTOP, Variant.ONECORE, Variant.STORE] }
        [14, 44, 17, 14] ∧
    ∀ m, get_crt_libs examplePkgs7 exampleCfg7 [14, 44, 17, 14] = .ok m →
      ∃ mD mO mS,
        get_crt_libs examplePkgs7 { exampleCfg7 with variant := [Variant.DESKTOP] }
          [14, 44, 17, 14] = .ok mD ∧
        get_crt_libs examplePkgs7 { exampleCfg7 with variant := [Variant.ONECORE] }
          [14, 44, 17, 14] = .ok mO ∧
        get_crt_libs examplePkgs7 { exampleCfg7 with variant := [Variant.STORE] }
          [14, 44, 17, 14] = .ok mS ∧
        ∀ k, lookupD m k = lookupD (pyDictUpdate (pyDictUpdate mD mO) mS) k :=
  variant_expansion_spec examplePkgs7 exampleCfg7 [14, 44, 17, 14] rfl
